import Mathlib

/-!
Verification of the inquiry-processing pipeline of the property_mgmt_flow
repository: the in-memory retry queue (src/message-queue.ts), the durable
store (src/database.ts), the Gmail poller with its dedup barrier and email
classifier (src/cron-gmail-poller.ts), and the orchestrator `processMessage`
(the express server source file).

The embedding is shallow: each TypeScript function is translated into an
executable Lean definition over explicit state.  Timestamps (`addedAt`,
`created_at`, `processed_at`) carry no logic in the source and are omitted.
The queue state carries two ghost components that make the source's
event-emitter observable: `inFlight` (items handed to the orchestrator via
the `processMessage` event and still awaiting `messageProcessed` /
`messageFailed`) and `events` (the ordered log of dispatch, completion and
terminal-failure emissions).
-/

namespace PropertyMgmt

/-- The four persisted statuses of database.ts (`Message['status']`). -/
inductive Status where
  | pending
  | processing
  | sent
  | failed
deriving DecidableEq, Repr

/-- `QueuedMessage` of message-queue.ts (without the `addedAt` timestamp). -/
structure QueuedMessage where
  gmailMessageId : String
  tenantName : String
  tenantEmail : Option String
  tenantMessage : String
  retryCount : Nat
deriving DecidableEq, Repr

/-- JavaScript `haystack.includes(needle)` on lists of characters:
true iff `pat` occurs contiguously. -/
def hasInfix (pat : List Char) : List Char → Bool
  | [] => pat.isEmpty
  | c :: rest => pat.isPrefixOf (c :: rest) || hasInfix pat rest

/-- JavaScript `s.includes(pat)` on strings. -/
def strContains (s pat : String) : Bool :=
  hasInfix pat.data s.data

/-- JavaScript `s.toLowerCase()`, character by character (structurally
recursive so that proofs can evaluate it). -/
def lowerStr (s : String) : String :=
  String.mk (s.data.map Char.toLower)

/-- JavaScript `s.trim()`: strip leading and trailing whitespace. -/
def trimChars (l : List Char) : List Char :=
  ((l.dropWhile Char.isWhitespace).reverse.dropWhile Char.isWhitespace).reverse

/-- Observable emissions of the queue's event emitter:
`dispatched` is the `processMessage` event (item handed to the orchestrator),
`completed` is `messageCompleted`, `terminallyFailed` is the `messageFailed`
event emitted on retry exhaustion. -/
inductive QEvent where
  | dispatched (m : QueuedMessage)
  | completed (m : QueuedMessage)
  | terminallyFailed (m : QueuedMessage)
deriving DecidableEq, Repr

/-- State of the `MessageQueue` class.  `queue` and `processing` are the
class fields; `inFlight` and `events` are ghost observations of the event
emitter (see module header). -/
structure QueueState where
  queue : List QueuedMessage
  processing : Bool
  maxRetries : Nat
  inFlight : List QueuedMessage
  events : List QEvent
deriving DecidableEq, Repr

/-- A fresh queue, as constructed by `new MessageQueue(maxRetries)`. -/
def initQueue (maxRetries : Nat) : QueueState :=
  { queue := [], processing := false, maxRetries := maxRetries,
    inFlight := [], events := [] }

/-- `Array.prototype.findIndex` followed by `splice(index, 1)`: remove the
first element satisfying `p`, returning it and the remaining list. -/
def findRemove (p : α → Bool) : List α → Option (α × List α)
  | [] => none
  | x :: xs =>
    if p x then some (x, xs)
    else
      match findRemove p xs with
      | none => none
      | some (y, ys) => some (y, x :: ys)

/-- Remove the first element satisfying `p` (if any). -/
def eraseFirst (p : α → Bool) (l : List α) : List α :=
  match findRemove p l with
  | none => l
  | some (_, rest) => rest

/-- `MessageQueue.processNext`: if the queue is empty, stop processing;
otherwise peek the head (without removing it), set `processing`, and hand the
head to the orchestrator (ghost: append to `inFlight` and log `dispatched`). -/
def processNext (s : QueueState) : QueueState :=
  match s.queue with
  | [] => { s with processing := false }
  | m :: _ =>
    { s with processing := true,
             inFlight := s.inFlight ++ [m],
             events := s.events ++ [QEvent.dispatched m] }

/-- `MessageQueue.enqueue`: append a fresh item with `retryCount = 0`; if the
queue is not already processing, immediately start draining. -/
def enqueue (s : QueueState) (id name : String) (email : Option String)
    (msg : String) : QueueState :=
  let qm : QueuedMessage :=
    { gmailMessageId := id, tenantName := name, tenantEmail := email,
      tenantMessage := msg, retryCount := 0 }
  let s' := { s with queue := s.queue ++ [qm] }
  if s'.processing then s' else processNext s'

/-- `MessageQueue.messageProcessed`: find the item by id (warn + no-op when
absent), remove it, log completion, resume draining.  Ghost: the caller is
the handler of the in-flight item with this id, so that item leaves
`inFlight`. -/
def messageProcessed (s : QueueState) (id : String) : QueueState :=
  match findRemove (fun m => m.gmailMessageId == id) s.queue with
  | none => s
  | some (m, rest) =>
    processNext
      { s with queue := rest,
               inFlight := eraseFirst (fun x => x.gmailMessageId == id) s.inFlight,
               events := s.events ++ [QEvent.completed m] }

/-- `MessageQueue.messageFailed`: find the item by id (warn + no-op when
absent) and increment its `retryCount`.  At `maxRetries` the item is removed
for good and the terminal `messageFailed` event fires; otherwise the item
moves to the tail.  Either way draining resumes. -/
def messageFailed (s : QueueState) (id : String) : QueueState :=
  match findRemove (fun m => m.gmailMessageId == id) s.queue with
  | none => s
  | some (m, rest) =>
    let m' := { m with retryCount := m.retryCount + 1 }
    let s₀ := { s with inFlight := eraseFirst (fun x => x.gmailMessageId == id) s.inFlight }
    if m'.retryCount ≥ s.maxRetries then
      processNext
        { s₀ with queue := rest,
                  events := s.events ++ [QEvent.terminallyFailed m'] }
    else
      processNext { s₀ with queue := rest ++ [m'] }

/-- The public operations on the queue, for quantifying over call
sequences. -/
inductive QOp where
  | enq (id name : String) (email : Option String) (msg : String)
  | complete (id : String)
  | fail (id : String)
deriving DecidableEq, Repr

/-- Apply one public queue operation. -/
def applyOp (s : QueueState) : QOp → QueueState
  | QOp.enq id name email msg => enqueue s id name email msg
  | QOp.complete id => messageProcessed s id
  | QOp.fail id => messageFailed s id

/-- Run a sequence of public queue operations. -/
def runQueue (s : QueueState) (ops : List QOp) : QueueState :=
  ops.foldl applyOp s

/-! ## Store (database.ts)

The `messages` table, keyed by `gmail_message_id` (declared `TEXT UNIQUE NOT
NULL`).  The auto-increment `id` and the server-generated timestamps carry no
logic and are omitted. -/

/-- A persisted row of the `messages` table. -/
structure Record where
  gmail_message_id : String
  tenant_name : String
  tenant_email : Option String
  tenant_message : String
  our_response : Option String
  status : Status
  error : Option String
  ff_conversation_url : Option String
deriving DecidableEq, Repr

/-- `MessageDatabase.messageExists`: `SELECT COUNT(*) WHERE gmail_message_id = ?`. -/
def messageExists (store : List Record) (id : String) : Bool :=
  store.any (fun r => r.gmail_message_id == id)

/-- The column values supplied to `insertMessage`'s `INSERT` statement
(`our_response` and `error` are not inserted and start as NULL). -/
structure NewMessage where
  gmail_message_id : String
  tenant_name : String
  tenant_email : Option String
  tenant_message : String
  status : Status
  ff_conversation_url : Option String
deriving DecidableEq, Repr

/-- `MessageDatabase.insertMessage`: a plain `INSERT`.  The schema's `UNIQUE`
constraint on `gmail_message_id` makes sql.js raise a constraint error on a
duplicate id, leaving the table unchanged; otherwise the row is appended. -/
def insertMessage (store : List Record) (m : NewMessage) :
    Except Unit (List Record) :=
  if messageExists store m.gmail_message_id then Except.error ()
  else
    Except.ok (store ++
      [{ gmail_message_id := m.gmail_message_id,
         tenant_name := m.tenant_name,
         tenant_email := m.tenant_email,
         tenant_message := m.tenant_message,
         our_response := none,
         status := m.status,
         error := none,
         ff_conversation_url := m.ff_conversation_url }])

/-- The store a caller observes after an `insertMessage` attempt: unchanged
when the `UNIQUE` constraint fired, the extended table otherwise. -/
def insertRun (store : List Record) (m : NewMessage) : List Record :=
  match insertMessage store m with
  | Except.error _ => store
  | Except.ok store' => store'

/-- `MessageDatabase.updateStatus`: `UPDATE messages SET status = ?, error = ?
WHERE gmail_message_id = ?` (the error column is overwritten, with NULL when
no error is passed). -/
def updateStatus (store : List Record) (id : String) (st : Status)
    (err : Option String) : List Record :=
  store.map fun r =>
    if r.gmail_message_id == id then { r with status := st, error := err } else r

/-- `MessageDatabase.updateResponse`: `UPDATE messages SET our_response = ?
WHERE gmail_message_id = ?`. -/
def updateResponse (store : List Record) (id : String) (resp : String) :
    List Record :=
  store.map fun r =>
    if r.gmail_message_id == id then { r with our_response := some resp } else r

/-- `MessageDatabase.getMessageByGmailId`: the first row with the given id. -/
def getRecord (store : List Record) (id : String) : Option Record :=
  store.find? (fun r => r.gmail_message_id == id)

/-- Number of rows holding a given `gmail_message_id`. -/
def countRecords (store : List Record) (id : String) : Nat :=
  store.countP (fun r => r.gmail_message_id == id)

/-! ## Poller (cron-gmail-poller.ts) -/

/-- The three classification outcomes of `categorizeEmail`. -/
inductive EmailType where
  | NEW_INQUIRY
  | REPLY
  | UNKNOWN
deriving DecidableEq, Repr

/-- JavaScript `x || dflt` for an optional string (`undefined` and the empty
string are falsy). -/
def jsOrString (x : Option String) (dflt : String) : String :=
  match x with
  | none => dflt
  | some s => if s = "" then dflt else s

/-- The suffix after the first occurrence of `pat` (none when `pat` does not
occur). -/
def afterFirst (pat : List Char) : List Char → Option (List Char)
  | [] => if pat.isEmpty then some [] else none
  | c :: rest =>
    if pat.isPrefixOf (c :: rest) then some ((c :: rest).drop pat.length)
    else afterFirst pat rest

/-- The regex capture `/<marker>(.+?)(?:\[|$)/` with `.trim()` applied: the
text after the marker, up to the first `[` or the end of the subject,
trimmed.  (The regex's backtracking corner case — a capture that starts at an
immediate `[` — is not modelled; no claim depends on it.) -/
def extractName (subject marker : String) : Option String :=
  match afterFirst marker.data subject.data with
  | none => none
  | some tail =>
    let captured := tail.takeWhile (fun c => c ≠ '[')
    let name := String.mk (trimChars captured)
    if name = "" then none else some name

/-- The regex capture `/<(.+?)>/` on the From header: the text between the
first `<` and the following `>` (none when absent or empty; the regex's
backtracking to a later `<` is not modelled; no claim depends on it). -/
def extractEmail (fromHeader : String) : Option String :=
  match afterFirst ['<'] fromHeader.data with
  | none => none
  | some tail =>
    let captured := tail.takeWhile (fun c => c ≠ '>')
    if captured.length = tail.length ∨ captured.isEmpty then none
    else some (String.mk captured)

/-- Result of `categorizeEmail`. -/
structure CategorizeResult where
  type : EmailType
  tenantName : Option String
  tenantEmail : Option String
deriving DecidableEq, Repr

/-- `GmailPoller.categorizeEmail`: the inquiry patterns are tested first, the
reply markers only in the final `else if`. -/
def categorizeEmail (subject fromHeader : String) : CategorizeResult :=
  let typeName : EmailType × Option String :=
    if strContains subject "Booking Inquiry from" then
      (EmailType.NEW_INQUIRY, extractName subject "Booking Inquiry from ")
    else if strContains subject "Property Owner Message" then
      (EmailType.NEW_INQUIRY, extractName subject "Property Owner Message from ")
    else if strContains subject "New reply from" || strContains subject "reply from"
        || strContains subject "Re:" then
      (EmailType.REPLY, none)
    else
      (EmailType.UNKNOWN, none)
  { type := typeName.1, tenantName := typeName.2,
    tenantEmail := extractEmail fromHeader }

/-- One message returned by the Gmail list/get queries: its id plus the
Subject and From headers used by the poller. -/
structure PollMsg where
  id : String
  subject : String
  fromHeader : String
deriving DecidableEq, Repr

/-- The safety configuration consulted by the poller (`SAFETY_CONFIG`). -/
structure PollConfig where
  testMode : Bool
  testSenderName : String
deriving DecidableEq, Repr

/-- The body of `checkGmail`'s per-message loop: skip when the id is already
in the database or in the queue; classify; only `NEW_INQUIRY` proceeds; the
test-mode filter may discard; otherwise insert a `pending` record and enqueue
the item. -/
def pollStep (cfg : PollConfig) (st : List Record × QueueState) (m : PollMsg) :
    List Record × QueueState :=
  let (store, qs) := st
  if messageExists store m.id then st
  else if qs.queue.any (fun x => x.gmailMessageId == m.id) then st
  else
    let c := categorizeEmail m.subject m.fromHeader
    if c.type ≠ EmailType.NEW_INQUIRY then st
    else if cfg.testMode
        && !(strContains (jsOrString c.tenantName "Unknown") cfg.testSenderName) then st
    else
      match insertMessage store
          { gmail_message_id := m.id,
            tenant_name := jsOrString c.tenantName "Unknown Tenant",
            tenant_email := c.tenantEmail,
            tenant_message := m.subject,
            status := Status.pending,
            ff_conversation_url := none } with
      | Except.error _ => st
      | Except.ok store' =>
        (store', enqueue qs m.id (jsOrString c.tenantName "Unknown Tenant")
          c.tenantEmail m.subject)

/-- One poll tick (`checkGmail`): process every listed message in order. -/
def pollTick (cfg : PollConfig) (st : List Record × QueueState)
    (msgs : List PollMsg) : List Record × QueueState :=
  msgs.foldl (pollStep cfg) st

/-- `MessageQueue.isInQueue`, as consulted by the poller. -/
def isInQueue (qs : QueueState) (id : String) : Bool :=
  qs.queue.any (fun x => x.gmailMessageId == id)

/-- Number of queued items holding a given id. -/
def countQueueItems (qs : QueueState) (id : String) : Nat :=
  qs.queue.countP (fun x => x.gmailMessageId == id)

/-! ## Orchestrator (`processMessage` in the express server source)

The three external collaborator calls — `playwrightResponder.extractLatestMessage`,
`llmClient.generateResponse`, `playwrightResponder.sendResponse` — are
suspension points whose outcomes are inputs to the pipeline; they are
modelled as `Except` oracles.  The function's observable effects (store
updates, queue signals, notifier calls, browser-session closes, the
re-thrown error) are returned explicitly. -/

/-- The value returned by `extractLatestMessage`. -/
structure ExtractedData where
  tenantName : String
  tenantMessage : String
  conversationUrl : String
deriving DecidableEq, Repr

/-- Outcomes of the three collaborator calls of one processing attempt
(errors carry the JS `Error.message`). -/
structure Collab where
  extractResult : Except String ExtractedData
  llmResult : Except String String
  sendResult : Except String Unit
deriving Repr

/-- Notifier calls the orchestrator can make (payloads as passed in the
source). -/
inductive Notification where
  | mismatch (gmailMessageId expectedName : String)
  | llmError (message tenantName : String)
  | authExpired
  | playwrightError (message gmailMessageId : String)
  | success (tenantName response : String)
  | approval (tenantName tenantMessage response conversationUrl : String)
deriving DecidableEq, Repr

/-- The error classification in `processMessage`'s catch block: an error
message containing "LLM" goes to `notifyLLMError`, else one containing
"auth" or "login" goes to `notifyAuthExpired`, else `notifyPlaywrightError`. -/
def classifyError (e tenantName gmailMessageId : String) : Notification :=
  if strContains e "LLM" then Notification.llmError e tenantName
  else if strContains e "auth" || strContains e "login" then Notification.authExpired
  else Notification.playwrightError e gmailMessageId

/-- The case-insensitive bidirectional substring check on tenant names. -/
def nameMatches (a b : String) : Bool :=
  strContains (lowerStr a) (lowerStr b) || strContains (lowerStr b) (lowerStr a)

/-- Observable outcome of one `processMessage` invocation. -/
structure ProcessResult where
  store : List Record
  qs : QueueState
  notifications : List Notification
  browserCloses : Nat
  statusWrites : List Status
  threw : Option String
deriving Repr

/-- The catch block of `processMessage`: close the browser, set the store
status to `failed` with the error message, route one classified error
notification, signal the queue `messageFailed`, and re-throw. -/
def failPath (store : List Record) (qs : QueueState) (m : QueuedMessage)
    (e : String) (warn : List Notification) : ProcessResult :=
  { store := updateStatus store m.gmailMessageId Status.failed (some e)
    qs := messageFailed qs m.gmailMessageId
    notifications := warn ++ [classifyError e m.tenantName m.gmailMessageId]
    browserCloses := 1
    statusWrites := [Status.processing, Status.failed]
    threw := some e }

/-- `processMessage`: set status `processing`; Extract (persisting the
extracted text via `updateResponse`, warning on a tenant-name mismatch);
Generate (persisting the response via `updateResponse`); then either
auto-send (status `sent`, success notification, queue complete) or route to
the approval channel (status `pending`, queue complete).  Any collaborator
error takes `failPath`. -/
def processMessage (autoSend : Bool) (c : Collab) (store : List Record)
    (qs : QueueState) (m : QueuedMessage) : ProcessResult :=
  let store1 := updateStatus store m.gmailMessageId Status.processing none
  match c.extractResult with
  | Except.error e => failPath store1 qs m e []
  | Except.ok ex =>
    let warn : List Notification :=
      if nameMatches ex.tenantName m.tenantName then []
      else [Notification.mismatch m.gmailMessageId m.tenantName]
    let store2 := updateResponse store1 m.gmailMessageId ex.tenantMessage
    match c.llmResult with
    | Except.error e => failPath store2 qs m e warn
    | Except.ok resp =>
      let store3 := updateResponse store2 m.gmailMessageId resp
      if autoSend then
        match c.sendResult with
        | Except.error e => failPath store3 qs m e warn
        | Except.ok _ =>
          { store := updateStatus store3 m.gmailMessageId Status.sent none
            qs := messageProcessed qs m.gmailMessageId
            notifications := warn ++ [Notification.success ex.tenantName resp]
            browserCloses := 1
            statusWrites := [Status.processing, Status.sent]
            threw := none }
      else
        { store := updateStatus store3 m.gmailMessageId Status.pending none
          qs := messageProcessed qs m.gmailMessageId
          notifications := warn ++
            [Notification.approval ex.tenantName ex.tenantMessage resp ex.conversationUrl]
          browserCloses := 1
          statusWrites := [Status.processing, Status.pending]
          threw := none }

/-! ## Whole-system model (poll ticks interleaved with processing attempts)

A system trace alternates poll ticks with processing attempts for the item
the queue has dispatched.  By the at-most-one-processing discipline the
dispatched item is the queue head, so an `attempt` step runs `processMessage`
on the head.  The ghost `transitions` log records every `(old, new)` status
pair written by `updateStatus` for the attempted item, pairing each write
with the status it overwrites. -/

/-- Configuration of a system run: the poller safety switches plus
`AUTO_SEND_ENABLED`. -/
structure SysConfig where
  testMode : Bool
  testSenderName : String
  autoSend : Bool
deriving DecidableEq, Repr

/-- Whole-system state with the ghost status-transition log. -/
structure SysState where
  store : List Record
  qs : QueueState
  transitions : List (Status × Status)
deriving Repr

/-- A system event: one poll tick, or one processing attempt (with the
collaborator outcomes for that attempt). -/
inductive SysEvent where
  | poll (msgs : List PollMsg)
  | attempt (c : Collab)

/-- Chain a starting status through a list of written statuses, producing the
`(old, new)` pair of every write. -/
def pairUp (a : Status) : List Status → List (Status × Status)
  | [] => []
  | x :: rest => (a, x) :: pairUp x rest

/-- Apply one system event.  An attempt on an empty queue, or for an item
whose id has no store row (an `UPDATE` matching no row writes nothing), logs
no transition. -/
def applySys (cfg : SysConfig) (s : SysState) : SysEvent → SysState
  | SysEvent.poll msgs =>
    let (store', qs') :=
      pollTick { testMode := cfg.testMode, testSenderName := cfg.testSenderName }
        (s.store, s.qs) msgs
    { s with store := store', qs := qs' }
  | SysEvent.attempt c =>
    match s.qs.queue with
    | [] => s
    | m :: _ =>
      let res := processMessage cfg.autoSend c s.store s.qs m
      let newTrans :=
        match getRecord s.store m.gmailMessageId with
        | none => []
        | some r => pairUp r.status res.statusWrites
      { store := res.store, qs := res.qs,
        transitions := s.transitions ++ newTrans }

/-- Run a system trace from a state. -/
def sysRun (cfg : SysConfig) (s : SysState) (evs : List SysEvent) : SysState :=
  evs.foldl (applySys cfg) s

/-- The empty initial system state (`maxRetries = 3`, the source default). -/
def sysInit : SysState :=
  { store := [], qs := initQueue 3, transitions := [] }

/-- The status transitions the spec's state machine allows. -/
def allowedTransitions : List (Status × Status) :=
  [(Status.pending, Status.processing),
   (Status.processing, Status.sent),
   (Status.processing, Status.pending),
   (Status.processing, Status.failed),
   (Status.failed, Status.processing)]

/-! ## Derived notions used by the verification -/

/-- The row created by a successful `insertMessage` call. -/
def insertedRow (m : NewMessage) : Record :=
  { gmail_message_id := m.gmail_message_id,
    tenant_name := m.tenant_name,
    tenant_email := m.tenant_email,
    tenant_message := m.tenant_message,
    our_response := none,
    status := m.status,
    error := none,
    ff_conversation_url := m.ff_conversation_url }

/-- Number of terminal-failure emissions for a given id in the ghost event
log. -/
def terminalEventCount (s : QueueState) (id : String) : Nat :=
  s.events.countP fun e =>
    match e with
    | QEvent.terminallyFailed m => m.gmailMessageId == id
    | _ => false

/-- Number of enqueue calls for a given id in an operation sequence. -/
def enqCount (ops : List QOp) (id : String) : Nat :=
  ops.countP fun op =>
    match op with
    | QOp.enq i _ _ _ => i == id
    | _ => false

/-- Retry-count bound satisfied by every payload of the ghost event log:
dispatched and completed items still have retries left, terminally failed
items carry exactly `maxRetries`. -/
def eventOk (k : Nat) : QEvent → Prop
  | QEvent.dispatched m => m.retryCount < k
  | QEvent.completed m => m.retryCount < k
  | QEvent.terminallyFailed m => m.retryCount = k

/-- The discipline assumed by the at-most-one-processing claim: `complete`
and `fail` are only ever invoked for an item currently handed to the
orchestrator. -/
def opOk (s : QueueState) : QOp → Bool
  | QOp.enq _ _ _ _ => true
  | QOp.complete id => s.inFlight.any (fun m => m.gmailMessageId == id)
  | QOp.fail id => s.inFlight.any (fun m => m.gmailMessageId == id)

/-- A call sequence follows the discipline from a given state. -/
def disciplined (s : QueueState) : List QOp → Bool
  | [] => true
  | op :: rest => opOk s op && disciplined (applyOp s op) rest

/-- The at-most-one-processing invariant: while draining, exactly the queue
head is in flight; while idle, nothing is. -/
def atMostOneInv (s : QueueState) : Prop :=
  (s.processing = true → ∃ m, s.inFlight = [m] ∧ s.queue.head? = some m) ∧
  (s.processing = false → s.inFlight = [])

/-- The events emitted while the queue drains `l ++ [a]` by completing each
element of `l` in turn: each completion is followed by the dispatch of the
next head, ending with the dispatch of `a`. -/
def completeEvents : List QueuedMessage → QueuedMessage → List QEvent
  | [], _ => []
  | m :: rest, a =>
    QEvent.completed m :: QEvent.dispatched (rest.headD a) :: completeEvents rest a

/-- Recognizer for approval notifications. -/
def isApproval : Notification → Bool
  | Notification.approval _ _ _ _ => true
  | _ => false

/-- Recognizer for error notifications (the classified kinds of the
orchestrator's catch block). -/
def isErrorNotification : Notification → Bool
  | Notification.llmError _ _ => true
  | Notification.authExpired => true
  | Notification.playwrightError _ _ => true
  | _ => false

/-- System invariant tying Queue and Store together: every queued item has a
store row whose status is `pending` or `failed`, queued ids are distinct, and
every logged transition is allowed. -/
def SysInv (s : SysState) : Prop :=
  (∀ it ∈ s.qs.queue, ∃ r, getRecord s.store it.gmailMessageId = some r ∧
    (r.status = Status.pending ∨ r.status = Status.failed)) ∧
  (s.qs.queue.map (fun m => m.gmailMessageId)).Nodup ∧
  (∀ t ∈ s.transitions, t ∈ allowedTransitions)

/-! ## Helper lemmas -/

theorem findRemove_eq_none (p : α → Bool) (l : List α)
    (h : ∀ x ∈ l, p x = false) : findRemove p l = none := by
  induction l with
  | nil => rfl
  | cons x xs ih =>
    have hx := h x (List.mem_cons_self x xs)
    simp only [findRemove, hx, Bool.false_eq_true, if_false]
    rw [ih fun y hy => h y (List.mem_cons_of_mem x hy)]

theorem findRemove_cons_pos (p : α → Bool) (x : α) (xs : List α)
    (h : p x = true) : findRemove p (x :: xs) = some (x, xs) := by
  simp [findRemove, h]

theorem findRemove_some (p : α → Bool) {l : List α} {m : α} {rest : List α}
    (h : findRemove p l = some (m, rest)) :
    p m = true ∧ l.Perm (m :: rest) := by
  induction l generalizing rest with
  | nil => simp [findRemove] at h
  | cons x xs ih =>
    by_cases hx : p x
    · rw [findRemove_cons_pos p x xs hx] at h
      simp only [Option.some.injEq, Prod.mk.injEq] at h
      obtain ⟨rfl, rfl⟩ := h
      exact ⟨hx, List.Perm.refl _⟩
    · simp only [findRemove, hx, Bool.false_eq_true, if_false] at h
      cases hys : findRemove p xs with
      | none => rw [hys] at h; simp at h
      | some pr =>
        obtain ⟨y, ys⟩ := pr
        rw [hys] at h
        simp only [Option.some.injEq, Prod.mk.injEq] at h
        obtain ⟨rfl, rfl⟩ := h
        obtain ⟨hpy, hperm⟩ := ih hys
        exact ⟨hpy, (hperm.cons x).trans (List.Perm.swap y x ys)⟩

theorem getRecord_mem {s : List Record} {id : String} {r : Record}
    (h : getRecord s id = some r) : r ∈ s ∧ r.gmail_message_id = id := by
  refine ⟨List.mem_of_find?_eq_some h, ?_⟩
  have := List.find?_some h
  simpa using this

theorem messageExists_iff {s : List Record} {id : String} :
    messageExists s id = true ↔ ∃ r, getRecord s id = some r := by
  constructor
  · intro h
    obtain ⟨r, hr, hid⟩ : ∃ r ∈ s, (r.gmail_message_id == id) = true := by
      simpa [messageExists] using h
    have : (s.find? (fun r => r.gmail_message_id == id)).isSome = true := by
      rw [List.find?_isSome]
      exact ⟨r, hr, hid⟩
    exact Option.isSome_iff_exists.mp this
  · rintro ⟨r, hr⟩
    obtain ⟨hmem, hid⟩ := getRecord_mem hr
    simp only [messageExists, List.any_eq_true]
    exact ⟨r, hmem, by simp [hid]⟩

theorem getRecord_cons (r : Record) (rest : List Record) (id : String) :
    getRecord (r :: rest) id =
      if r.gmail_message_id == id then some r else getRecord rest id := by
  by_cases h : (r.gmail_message_id == id) = true
  · rw [if_pos h]
    exact List.find?_cons_of_pos _ h
  · rw [if_neg h]
    exact List.find?_cons_of_neg _ (by simpa using h)

theorem updateStatus_cons (r : Record) (rest : List Record) (id : String)
    (st : Status) (e : Option String) :
    updateStatus (r :: rest) id st e =
      (if r.gmail_message_id == id then { r with status := st, error := e } else r)
        :: updateStatus rest id st e := rfl

theorem updateResponse_cons (r : Record) (rest : List Record) (id : String)
    (resp : String) :
    updateResponse (r :: rest) id resp =
      (if r.gmail_message_id == id then { r with our_response := some resp } else r)
        :: updateResponse rest id resp := rfl

theorem getRecord_updateStatus_self (s : List Record) (id : String) (st : Status)
    (e : Option String) :
    getRecord (updateStatus s id st e) id =
      (getRecord s id).map (fun r => { r with status := st, error := e }) := by
  induction s with
  | nil => rfl
  | cons r rest ih =>
    rw [updateStatus_cons]
    by_cases h : (r.gmail_message_id == id) = true
    · rw [if_pos h, getRecord_cons, getRecord_cons, if_pos h, if_pos h]
      rfl
    · rw [if_neg h, getRecord_cons, getRecord_cons, if_neg h, if_neg h, ih]

theorem getRecord_updateStatus_ne (s : List Record) (id id' : String) (st : Status)
    (e : Option String) (h : id' ≠ id) :
    getRecord (updateStatus s id st e) id' = getRecord s id' := by
  induction s with
  | nil => rfl
  | cons r rest ih =>
    rw [updateStatus_cons]
    by_cases hr : (r.gmail_message_id == id) = true
    · have hrid : r.gmail_message_id = id := by simpa using hr
      have hr' : ¬ (r.gmail_message_id == id') = true := by
        simp [hrid]
        exact fun hc => h hc.symm
      rw [if_pos hr, getRecord_cons, getRecord_cons, if_neg hr', if_neg hr', ih]
    · rw [if_neg hr, getRecord_cons, getRecord_cons, ih]

theorem getRecord_updateResponse_self (s : List Record) (id : String) (resp : String) :
    getRecord (updateResponse s id resp) id =
      (getRecord s id).map (fun r => { r with our_response := some resp }) := by
  induction s with
  | nil => rfl
  | cons r rest ih =>
    rw [updateResponse_cons]
    by_cases h : (r.gmail_message_id == id) = true
    · rw [if_pos h, getRecord_cons, getRecord_cons, if_pos h, if_pos h]
      rfl
    · rw [if_neg h, getRecord_cons, getRecord_cons, if_neg h, if_neg h, ih]

theorem getRecord_updateResponse_ne (s : List Record) (id id' : String) (resp : String)
    (h : id' ≠ id) :
    getRecord (updateResponse s id resp) id' = getRecord s id' := by
  induction s with
  | nil => rfl
  | cons r rest ih =>
    rw [updateResponse_cons]
    by_cases hr : (r.gmail_message_id == id) = true
    · have hrid : r.gmail_message_id = id := by simpa using hr
      have hr' : ¬ (r.gmail_message_id == id') = true := by
        simp [hrid]
        exact fun hc => h hc.symm
      rw [if_pos hr, getRecord_cons, getRecord_cons, if_neg hr', if_neg hr', ih]
    · rw [if_neg hr, getRecord_cons, getRecord_cons, ih]

theorem ids_updateStatus (s : List Record) (id : String) (st : Status)
    (e : Option String) :
    (updateStatus s id st e).map (fun r => r.gmail_message_id) =
      s.map (fun r => r.gmail_message_id) := by
  induction s with
  | nil => rfl
  | cons r rest ih =>
    rw [updateStatus_cons, List.map_cons, List.map_cons, ih]
    by_cases h : (r.gmail_message_id == id) = true
    · rw [if_pos h]
    · rw [if_neg h]

theorem ids_updateResponse (s : List Record) (id : String) (resp : String) :
    (updateResponse s id resp).map (fun r => r.gmail_message_id) =
      s.map (fun r => r.gmail_message_id) := by
  induction s with
  | nil => rfl
  | cons r rest ih =>
    rw [updateResponse_cons, List.map_cons, List.map_cons, ih]
    by_cases h : (r.gmail_message_id == id) = true
    · rw [if_pos h]
    · rw [if_neg h]

/-! ## Claim theorems -/

/-- C10: a subject containing "Booking Inquiry from" or "Property Owner
Message" is classified `NEW_INQUIRY` even when it also contains a reply
marker such as "Re:" or "reply from", because the inquiry patterns are
tested before the reply patterns; `REPLY` is only returned when no inquiry
pattern matches. -/
theorem claim_C10_inquiry_patterns_win :
    (∀ subject fromHeader : String,
      (strContains subject "Booking Inquiry from" = true ∨
        strContains subject "Property Owner Message" = true) →
      (categorizeEmail subject fromHeader).type = EmailType.NEW_INQUIRY) ∧
    (∀ subject fromHeader : String,
      (categorizeEmail subject fromHeader).type = EmailType.REPLY →
      strContains subject "Booking Inquiry from" = false ∧
        strContains subject "Property Owner Message" = false) := by
  constructor
  · intro subject fromHeader h
    cases h with
    | inl hb => simp [categorizeEmail, hb]
    | inr hp =>
      by_cases hb : strContains subject "Booking Inquiry from" = true
      · simp [categorizeEmail, hb]
      · simp [categorizeEmail, hb, hp]
  · intro subject fromHeader h
    by_cases hb : strContains subject "Booking Inquiry from" = true
    · simp [categorizeEmail, hb] at h
    · by_cases hp : strContains subject "Property Owner Message" = true
      · simp [categorizeEmail, hb, hp] at h
      · exact ⟨by simpa using hb, by simpa using hp⟩

/-- C10 witness: a subject carrying both a reply marker and an inquiry
pattern is classified `NEW_INQUIRY`. -/
theorem claim_C10_witness :
    (strContains "Re: Booking Inquiry from Nancy E" "Booking Inquiry from" = true ∨
      strContains "Re: Booking Inquiry from Nancy E" "Property Owner Message" = true) ∧
    (categorizeEmail "Re: Booking Inquiry from Nancy E" "Nancy <n@e.com>").type =
      EmailType.NEW_INQUIRY :=
  ⟨Or.inl (by decide),
    claim_C10_inquiry_patterns_win.1 "Re: Booking Inquiry from Nancy E"
      "Nancy <n@e.com>" (Or.inl (by decide))⟩

theorem countRecords_append (s t : List Record) (id : String) :
    countRecords (s ++ t) id = countRecords s id + countRecords t id :=
  List.countP_append _ _ _

theorem countRecords_singleton (r : Record) (id : String) :
    countRecords [r] id = if r.gmail_message_id == id then 1 else 0 := by
  rw [countRecords, List.countP_cons]
  simp [List.countP_nil]

theorem messageExists_false_count {s : List Record} {id : String}
    (h : messageExists s id = false) : countRecords s id = 0 := by
  rw [countRecords, List.countP_eq_zero]
  intro r hr
  have := List.any_eq_false.mp h r hr
  simpa using this

theorem insertRun_of_exists {store : List Record} {m : NewMessage}
    (h : messageExists store m.gmail_message_id = true) :
    insertRun store m = store := by
  simp [insertRun, insertMessage, h]

theorem insertRun_of_not_exists {store : List Record} {m : NewMessage}
    (h : messageExists store m.gmail_message_id = false) :
    insertRun store m = store ++ [insertedRow m] := by
  simp [insertRun, insertMessage, h, insertedRow]

theorem countRecords_insertRun_le {store : List Record} {m : NewMessage}
    {id : String} (h : countRecords store id ≤ 1) :
    countRecords (insertRun store m) id ≤ 1 := by
  by_cases he : messageExists store m.gmail_message_id = true
  · rw [insertRun_of_exists he]; exact h
  · have he' : messageExists store m.gmail_message_id = false := by simpa using he
    rw [insertRun_of_not_exists he', countRecords_append, countRecords_singleton]
    by_cases hid : (insertedRow m).gmail_message_id == id
    · have hz : countRecords store id = 0 := by
        have hide : m.gmail_message_id = id := by simpa [insertedRow] using hid
        exact messageExists_false_count (hide ▸ he')
      rw [if_pos hid, hz]
    · rw [if_neg hid]
      omega

theorem countRecords_insertRun_mono (store : List Record) (m : NewMessage)
    (id : String) :
    countRecords store id ≤ countRecords (insertRun store m) id := by
  by_cases he : messageExists store m.gmail_message_id = true
  · rw [insertRun_of_exists he]
  · have he' : messageExists store m.gmail_message_id = false := by simpa using he
    rw [insertRun_of_not_exists he', countRecords_append]
    omega

theorem countRecords_insertRun_pos_self (store : List Record) (m : NewMessage) :
    0 < countRecords (insertRun store m) m.gmail_message_id := by
  by_cases he : messageExists store m.gmail_message_id = true
  · rw [insertRun_of_exists he]
    rw [countRecords, List.countP_pos_iff]
    obtain ⟨r, hr, hp⟩ : ∃ r ∈ store, (r.gmail_message_id == m.gmail_message_id) = true := by
      simpa [messageExists] using he
    exact ⟨r, hr, hp⟩
  · have he' : messageExists store m.gmail_message_id = false := by simpa using he
    rw [insertRun_of_not_exists he', countRecords_append, countRecords_singleton]
    simp [insertedRow]

theorem foldl_insertRun_le (ms : List NewMessage) :
    ∀ (store : List Record) (id : String), countRecords store id ≤ 1 →
      countRecords (ms.foldl insertRun store) id ≤ 1 := by
  induction ms with
  | nil => intro store id h; exact h
  | cons m rest ih =>
    intro store id h
    exact ih _ _ (countRecords_insertRun_le h)

theorem foldl_insertRun_mono (ms : List NewMessage) :
    ∀ (store : List Record) (id : String),
      countRecords store id ≤ countRecords (ms.foldl insertRun store) id := by
  induction ms with
  | nil => intro store id; exact Nat.le.refl
  | cons m rest ih =>
    intro store id
    exact (countRecords_insertRun_mono store m id).trans (ih _ _)

theorem foldl_insertRun_mem (ms : List NewMessage) :
    ∀ (store : List Record) (m : NewMessage), m ∈ ms →
      0 < countRecords (ms.foldl insertRun store) m.gmail_message_id := by
  induction ms with
  | nil => intro _ _ h; cases h
  | cons x rest ih =>
    intro store m hm
    rcases List.mem_cons.mp hm with rfl | hm'
    · exact Nat.lt_of_lt_of_le (countRecords_insertRun_pos_self store m)
        (foldl_insertRun_mono rest (insertRun store m) m.gmail_message_id)
    · exact ih (insertRun store x) m hm'

/-- C8: the Store holds exactly one record per `external_id` after any
sequence of inserts; an insert whose id duplicates an existing record raises
the UNIQUE-constraint conflict and leaves the table — in particular the
pre-existing record — unchanged. -/
theorem claim_C8_store_uniqueness :
    (∀ (ms : List NewMessage) (id : String),
      countRecords (ms.foldl insertRun []) id ≤ 1) ∧
    (∀ (ms : List NewMessage) (m : NewMessage), m ∈ ms →
      countRecords (ms.foldl insertRun []) m.gmail_message_id = 1) ∧
    (∀ (store : List Record) (m : NewMessage),
      messageExists store m.gmail_message_id = true →
      insertMessage store m = Except.error () ∧ insertRun store m = store) := by
  refine ⟨?_, ?_, ?_⟩
  · intro ms id
    exact foldl_insertRun_le ms [] id (by simp [countRecords])
  · intro ms m hm
    have h1 := foldl_insertRun_le ms [] m.gmail_message_id (by simp [countRecords])
    have h2 := foldl_insertRun_mem ms [] m hm
    omega
  · intro store m h
    exact ⟨by simp [insertMessage, h], insertRun_of_exists h⟩

/-- C8 witness: inserting the same id twice leaves exactly one record. -/
theorem claim_C8_witness :
    (⟨"m1", "Al", none, "hello", Status.pending, none⟩ : NewMessage) ∈
      [(⟨"m1", "Al", none, "hello", Status.pending, none⟩ : NewMessage),
       ⟨"m1", "Bo", none, "again", Status.pending, none⟩] ∧
    countRecords
      ([(⟨"m1", "Al", none, "hello", Status.pending, none⟩ : NewMessage),
        ⟨"m1", "Bo", none, "again", Status.pending, none⟩].foldl insertRun [])
      "m1" = 1 :=
  ⟨by decide,
    claim_C8_store_uniqueness.2.1
      [⟨"m1", "Al", none, "hello", Status.pending, none⟩,
       ⟨"m1", "Bo", none, "again", Status.pending, none⟩]
      ⟨"m1", "Al", none, "hello", Status.pending, none⟩ (by decide)⟩

theorem tenant_message_updateStatus (s : List Record) (id : String) (st : Status)
    (e : Option String) :
    (updateStatus s id st e).map (fun r => r.tenant_message) =
      s.map (fun r => r.tenant_message) := by
  induction s with
  | nil => rfl
  | cons r rest ih =>
    rw [updateStatus_cons, List.map_cons, List.map_cons, ih]
    by_cases h : (r.gmail_message_id == id) = true
    · rw [if_pos h]
    · rw [if_neg h]

theorem tenant_message_updateResponse (s : List Record) (id resp : String) :
    (updateResponse s id resp).map (fun r => r.tenant_message) =
      s.map (fun r => r.tenant_message) := by
  induction s with
  | nil => rfl
  | cons r rest ih =>
    rw [updateResponse_cons, List.map_cons, List.map_cons, ih]
    by_cases h : (r.gmail_message_id == id) = true
    · rw [if_pos h]
    · rw [if_neg h]

theorem ffurl_updateStatus (s : List Record) (id : String) (st : Status)
    (e : Option String) :
    (updateStatus s id st e).map (fun r => r.ff_conversation_url) =
      s.map (fun r => r.ff_conversation_url) := by
  induction s with
  | nil => rfl
  | cons r rest ih =>
    rw [updateStatus_cons, List.map_cons, List.map_cons, ih]
    by_cases h : (r.gmail_message_id == id) = true
    · rw [if_pos h]
    · rw [if_neg h]

theorem ffurl_updateResponse (s : List Record) (id resp : String) :
    (updateResponse s id resp).map (fun r => r.ff_conversation_url) =
      s.map (fun r => r.ff_conversation_url) := by
  induction s with
  | nil => rfl
  | cons r rest ih =>
    rw [updateResponse_cons, List.map_cons, List.map_cons, ih]
    by_cases h : (r.gmail_message_id == id) = true
    · rw [if_pos h]
    · rw [if_neg h]

/-- C3 counterexample: with a pending record whose `tenant_message` is the
mail subject, a successful Extract returning new text and a conversation
URL, and a successful Generate, the final record keeps the subject in
`tenant_message` (the extracted text went to `our_response` via
`updateResponse`) and `ff_conversation_url` stays NULL — the claim's
persistence of `tenant_message` and `conversation_reference` does not
happen. -/
theorem claim_C3_counterexample :
    getRecord (processMessage false
        { extractResult := Except.ok
            { tenantName := "Nancy E",
              tenantMessage := "Hi, is the place pet friendly?",
              conversationUrl := "https://ff/conv/1" },
          llmResult := Except.ok "Yes, we welcome well-behaved pets...",
          sendResult := Except.ok () }
        [{ gmail_message_id := "m1", tenant_name := "Nancy E", tenant_email := none,
           tenant_message := "Booking Inquiry from Nancy E", our_response := none,
           status := Status.pending, error := none, ff_conversation_url := none }]
        (initQueue 3)
        { gmailMessageId := "m1", tenantName := "Nancy E", tenantEmail := none,
          tenantMessage := "Booking Inquiry from Nancy E", retryCount := 0 }).store "m1" =
      some { gmail_message_id := "m1", tenant_name := "Nancy E", tenant_email := none,
             tenant_message := "Booking Inquiry from Nancy E",
             our_response := some "Yes, we welcome well-behaved pets...",
             status := Status.pending, error := none, ff_conversation_url := none } ∧
    "Booking Inquiry from Nancy E" ≠ "Hi, is the place pet friendly?" ∧
    (none : Option String) ≠ some "https://ff/conv/1" :=
  ⟨by decide, by decide, by decide⟩

/-- C3 (amended): after a successful Extract the orchestrator persists the
extracted text through `updateResponse`, i.e. into the record's
`our_response` column; the record's `tenant_message` column and its
`ff_conversation_url` column are never written by `processMessage` (the
conversation reference is only passed along to the approval notification). -/
theorem claim_C3_extract_goes_to_our_response :
    (∀ (a : Bool) (c : Collab) (store : List Record) (qs : QueueState)
        (m : QueuedMessage),
      (processMessage a c store qs m).store.map (fun r => r.tenant_message) =
        store.map (fun r => r.tenant_message) ∧
      (processMessage a c store qs m).store.map (fun r => r.ff_conversation_url) =
        store.map (fun r => r.ff_conversation_url)) ∧
    (∀ (a : Bool) (c : Collab) (store : List Record) (qs : QueueState)
        (m : QueuedMessage) (ex : ExtractedData) (e : String),
      c.extractResult = Except.ok ex → c.llmResult = Except.error e →
      ∀ r, getRecord (processMessage a c store qs m).store m.gmailMessageId = some r →
        r.our_response = some ex.tenantMessage) := by
  constructor
  · intro a c store qs m
    cases hex : c.extractResult with
    | error e =>
      constructor <;>
        simp [processMessage, failPath, hex, tenant_message_updateStatus,
          ffurl_updateStatus]
    | ok ex =>
      cases hllm : c.llmResult with
      | error e =>
        constructor <;>
          simp [processMessage, failPath, hex, hllm, tenant_message_updateStatus,
            tenant_message_updateResponse, ffurl_updateStatus, ffurl_updateResponse]
      | ok resp =>
        cases hsend : c.sendResult with
        | error e =>
          cases a <;> constructor <;>
            simp [processMessage, failPath, hex, hllm, hsend,
              tenant_message_updateStatus, tenant_message_updateResponse,
              ffurl_updateStatus, ffurl_updateResponse]
        | ok u =>
          cases a <;> constructor <;>
            simp [processMessage, failPath, hex, hllm, hsend,
              tenant_message_updateStatus, tenant_message_updateResponse,
              ffurl_updateStatus, ffurl_updateResponse]
  · intro a c store qs m ex e hex hllm r hr
    simp only [processMessage, hex, hllm, failPath] at hr
    rw [getRecord_updateStatus_self, getRecord_updateResponse_self] at hr
    cases hg : getRecord (updateStatus store m.gmailMessageId Status.processing none)
        m.gmailMessageId with
    | none => rw [hg] at hr; simp at hr
    | some r1 =>
      rw [hg] at hr
      simp only [Option.map_some', Option.some.injEq] at hr
      rw [← hr]

/-- C3 witness for the amended theorem: a run in which Generate fails leaves
the extracted text in `our_response`. -/
theorem claim_C3_witness :
    ({ extractResult := Except.ok
         { tenantName := "Al B", tenantMessage := "What is the rent?",
           conversationUrl := "https://ff/conv/2" },
       llmResult := Except.error "LLM request failed",
       sendResult := Except.ok () } : Collab).extractResult = Except.ok
         { tenantName := "Al B", tenantMessage := "What is the rent?",
           conversationUrl := "https://ff/conv/2" } ∧
    ({ extractResult := Except.ok
         { tenantName := "Al B", tenantMessage := "What is the rent?",
           conversationUrl := "https://ff/conv/2" },
       llmResult := Except.error "LLM request failed",
       sendResult := Except.ok () } : Collab).llmResult = Except.error "LLM request failed" ∧
    ∀ r, getRecord (processMessage false
        { extractResult := Except.ok
            { tenantName := "Al B", tenantMessage := "What is the rent?",
              conversationUrl := "https://ff/conv/2" },
          llmResult := Except.error "LLM request failed",
          sendResult := Except.ok () }
        [{ gmail_message_id := "m2", tenant_name := "Al B", tenant_email := none,
           tenant_message := "Booking Inquiry from Al B", our_response := none,
           status := Status.pending, error := none, ff_conversation_url := none }]
        (initQueue 3)
        { gmailMessageId := "m2", tenantName := "Al B", tenantEmail := none,
          tenantMessage := "Booking Inquiry from Al B", retryCount := 0 }).store
        "m2" = some r →
      r.our_response = some "What is the rent?" :=
  ⟨rfl, rfl,
    claim_C3_extract_goes_to_our_response.2 false
      { extractResult := Except.ok
          { tenantName := "Al B", tenantMessage := "What is the rent?",
            conversationUrl := "https://ff/conv/2" },
        llmResult := Except.error "LLM request failed",
        sendResult := Except.ok () }
      [{ gmail_message_id := "m2", tenant_name := "Al B", tenant_email := none,
         tenant_message := "Booking Inquiry from Al B", our_response := none,
         status := Status.pending, error := none, ff_conversation_url := none }]
      (initQueue 3)
      { gmailMessageId := "m2", tenantName := "Al B", tenantEmail := none,
        tenantMessage := "Booking Inquiry from Al B", retryCount := 0 }
      { tenantName := "Al B", tenantMessage := "What is the rent?",
        conversationUrl := "https://ff/conv/2" }
      "LLM request failed" rfl rfl⟩

theorem processNext_queue (s : QueueState) : (processNext s).queue = s.queue := by
  cases h : s.queue <;> simp [processNext, h]

theorem enqueue_queue (s : QueueState) (id name : String) (email : Option String)
    (msg : String) :
    (enqueue s id name email msg).queue =
      s.queue ++ [{ gmailMessageId := id, tenantName := name, tenantEmail := email,
                    tenantMessage := msg, retryCount := 0 }] := by
  cases hp : s.processing <;> simp [enqueue, hp, processNext_queue]

theorem countQueueItems_enqueue (qs : QueueState) (id' name : String)
    (email : Option String) (msg : String) (id : String) :
    countQueueItems (enqueue qs id' name email msg) id =
      countQueueItems qs id + (if id' == id then 1 else 0) := by
  rw [countQueueItems, countQueueItems, enqueue_queue, List.countP_append,
    List.countP_cons]
  simp [List.countP_nil]

theorem messageExists_append_left {store : List Record} {id : String}
    (l : List Record) (h : messageExists store id = true) :
    messageExists (store ++ l) id = true := by
  rw [messageExists, List.any_append]
  rw [messageExists] at h
  simp [h]

theorem isInQueue_enqueue_left {qs : QueueState} {id : String} (id' name : String)
    (email : Option String) (msg : String) (h : isInQueue qs id = true) :
    isInQueue (enqueue qs id' name email msg) id = true := by
  rw [isInQueue, enqueue_queue, List.any_append]
  rw [isInQueue] at h
  simp [h]

theorem pollStep_preserves (cfg : PollConfig) (store : List Record)
    (qs : QueueState) (m : PollMsg) (id : String)
    (h : messageExists store id = true ∨ isInQueue qs id = true) :
    (countRecords (pollStep cfg (store, qs) m).1 id = countRecords store id ∧
      countQueueItems (pollStep cfg (store, qs) m).2 id = countQueueItems qs id) ∧
    (messageExists (pollStep cfg (store, qs) m).1 id = true ∨
      isInQueue (pollStep cfg (store, qs) m).2 id = true) := by
  by_cases h1 : messageExists store m.id = true
  · simp only [pollStep, h1, if_true]
    exact ⟨⟨by trivial, by trivial⟩, h⟩
  · by_cases h2 : qs.queue.any (fun x => x.gmailMessageId == m.id) = true
    · simp only [pollStep, h1, if_false, h2, if_true, Bool.false_eq_true]
      exact ⟨⟨by trivial, by trivial⟩, h⟩
    · by_cases h3 : (categorizeEmail m.subject m.fromHeader).type = EmailType.NEW_INQUIRY
      · by_cases h4 : (cfg.testMode &&
            !(strContains (jsOrString (categorizeEmail m.subject m.fromHeader).tenantName
              "Unknown") cfg.testSenderName)) = true
        · simp only [pollStep, h1, h2, h3, h4, Bool.false_eq_true, if_false, if_true,
            ne_eq, not_true_eq_false]
          exact ⟨⟨by trivial, by trivial⟩, h⟩
        · have hne : ¬ m.id = id := by
            intro hc
            cases h with
            | inl hl => rw [← hc] at hl; exact h1 hl
            | inr hr => rw [← hc] at hr; exact h2 hr
          have hex : messageExists store m.id = false := by simpa using h1
          have hstep : pollStep cfg (store, qs) m =
              (store ++ [insertedRow
                 { gmail_message_id := m.id,
                   tenant_name := jsOrString
                     (categorizeEmail m.subject m.fromHeader).tenantName "Unknown Tenant",
                   tenant_email := (categorizeEmail m.subject m.fromHeader).tenantEmail,
                   tenant_message := m.subject,
                   status := Status.pending,
                   ff_conversation_url := none }],
               enqueue qs m.id
                 (jsOrString (categorizeEmail m.subject m.fromHeader).tenantName
                   "Unknown Tenant")
                 (categorizeEmail m.subject m.fromHeader).tenantEmail m.subject) := by
            simp only [pollStep, h1, h2, h3, h4, Bool.false_eq_true, if_false, ne_eq,
              not_true_eq_false, insertMessage, hex, insertedRow]
          rw [hstep]
          constructor
          · constructor
            · rw [countRecords_append, countRecords_singleton]
              simp [insertedRow, hne]
            · rw [countQueueItems_enqueue]
              simp [hne]
          · cases h with
            | inl hl => exact Or.inl (messageExists_append_left _ hl)
            | inr hr => exact Or.inr (isInQueue_enqueue_left _ _ _ _ hr)
      · simp only [pollStep, h1, h2, h3, Bool.false_eq_true, if_false, ne_eq,
          not_false_eq_true, if_true]
        exact ⟨⟨by trivial, by trivial⟩, h⟩

theorem pollTick_preserves (cfg : PollConfig) (msgs : List PollMsg) :
    ∀ (store : List Record) (qs : QueueState) (id : String),
      (messageExists store id = true ∨ isInQueue qs id = true) →
      (countRecords (pollTick cfg (store, qs) msgs).1 id = countRecords store id ∧
        countQueueItems (pollTick cfg (store, qs) msgs).2 id = countQueueItems qs id) ∧
      (messageExists (pollTick cfg (store, qs) msgs).1 id = true ∨
        isInQueue (pollTick cfg (store, qs) msgs).2 id = true) := by
  induction msgs with
  | nil => intro store qs id h; exact ⟨⟨rfl, rfl⟩, h⟩
  | cons m rest ih =>
    intro store qs id h
    obtain ⟨⟨hc1, hc2⟩, hpres⟩ := pollStep_preserves cfg store qs m id h
    obtain ⟨⟨ht1, ht2⟩, htp⟩ :=
      ih (pollStep cfg (store, qs) m).1 (pollStep cfg (store, qs) m).2 id hpres
    exact ⟨⟨ht1.trans hc1, ht2.trans hc2⟩, htp⟩

/-- C2: a message whose id is already in the Store or currently in the Queue
is neither inserted nor enqueued by a poll tick — both its record count and
its queued-item count are unchanged by the whole tick. -/
theorem claim_C2_dedup_barrier (cfg : PollConfig) (store : List Record)
    (qs : QueueState) (msgs : List PollMsg) (id : String)
    (h : messageExists store id = true ∨ isInQueue qs id = true) :
    countRecords (pollTick cfg (store, qs) msgs).1 id = countRecords store id ∧
    countQueueItems (pollTick cfg (store, qs) msgs).2 id = countQueueItems qs id :=
  (pollTick_preserves cfg msgs store qs id h).1

/-- C2 witness: a tick re-delivering an id already stored performs no insert
and no enqueue for it. -/
theorem claim_C2_witness :
    (messageExists
        [{ gmail_message_id := "m1", tenant_name := "Al", tenant_email := none,
           tenant_message := "Booking Inquiry from Al", our_response := none,
           status := Status.sent, error := none, ff_conversation_url := none }]
        "m1" = true ∨
      isInQueue (initQueue 3) "m1" = true) ∧
    (countRecords (pollTick { testMode := false, testSenderName := "" }
        ([{ gmail_message_id := "m1", tenant_name := "Al", tenant_email := none,
            tenant_message := "Booking Inquiry from Al", our_response := none,
            status := Status.sent, error := none, ff_conversation_url := none }],
         initQueue 3)
        [{ id := "m1", subject := "Booking Inquiry from Al", fromHeader := "Al <a@b.c>" }]).1
        "m1" =
      countRecords
        [{ gmail_message_id := "m1", tenant_name := "Al", tenant_email := none,
           tenant_message := "Booking Inquiry from Al", our_response := none,
           status := Status.sent, error := none, ff_conversation_url := none }]
        "m1" ∧
    countQueueItems (pollTick { testMode := false, testSenderName := "" }
        ([{ gmail_message_id := "m1", tenant_name := "Al", tenant_email := none,
            tenant_message := "Booking Inquiry from Al", our_response := none,
            status := Status.sent, error := none, ff_conversation_url := none }],
         initQueue 3)
        [{ id := "m1", subject := "Booking Inquiry from Al", fromHeader := "Al <a@b.c>" }]).2
        "m1" =
      countQueueItems (initQueue 3) "m1") :=
  ⟨Or.inl (by decide),
    claim_C2_dedup_barrier { testMode := false, testSenderName := "" }
      [{ gmail_message_id := "m1", tenant_name := "Al", tenant_email := none,
         tenant_message := "Booking Inquiry from Al", our_response := none,
         status := Status.sent, error := none, ff_conversation_url := none }]
      (initQueue 3)
      [{ id := "m1", subject := "Booking Inquiry from Al", fromHeader := "Al <a@b.c>" }]
      "m1" (Or.inl (by decide))⟩

theorem failPath_spec (store : List Record) (qs : QueueState) (m : QueuedMessage)
    (e : String) (warn : List Notification)
    (hw : ∀ n ∈ warn, isErrorNotification n = false) :
    (failPath store qs m e warn).browserCloses = 1 ∧
    (∀ r, getRecord (failPath store qs m e warn).store m.gmailMessageId = some r →
      r.status = Status.failed ∧ r.error = some e) ∧
    (∃ w, (failPath store qs m e warn).notifications =
        w ++ [classifyError e m.tenantName m.gmailMessageId] ∧
      ∀ n ∈ w, isErrorNotification n = false) ∧
    (failPath store qs m e warn).qs = messageFailed qs m.gmailMessageId ∧
    (failPath store qs m e warn).threw = some e := by
  refine ⟨rfl, ?_, ⟨warn, rfl, hw⟩, rfl, rfl⟩
  intro r hr
  simp only [failPath] at hr
  rw [getRecord_updateStatus_self] at hr
  cases hg : getRecord store m.gmailMessageId with
  | none => rw [hg] at hr; simp at hr
  | some r0 =>
    rw [hg] at hr
    simp only [Option.map_some', Option.some.injEq] at hr
    rw [← hr]
    exact ⟨rfl, rfl⟩

/-- C6: whenever the Extract, Generate, or Deliver stage raises, the
orchestrator closes the browser session, marks the record `failed` with the
error message, emits exactly one classified error notification (only the
non-error mismatch warning may precede it), signals the queue `fail`, and
re-throws — on every error path alike. -/
theorem claim_C6_error_path (a : Bool) (c : Collab) (store : List Record)
    (qs : QueueState) (m : QueuedMessage) (e : String)
    (h : c.extractResult = Except.error e ∨
      (∃ ex, c.extractResult = Except.ok ex ∧ c.llmResult = Except.error e) ∨
      (∃ ex resp, c.extractResult = Except.ok ex ∧ c.llmResult = Except.ok resp ∧
        a = true ∧ c.sendResult = Except.error e)) :
    (processMessage a c store qs m).browserCloses = 1 ∧
    (∀ r, getRecord (processMessage a c store qs m).store m.gmailMessageId = some r →
      r.status = Status.failed ∧ r.error = some e) ∧
    (∃ w, (processMessage a c store qs m).notifications =
        w ++ [classifyError e m.tenantName m.gmailMessageId] ∧
      ∀ n ∈ w, isErrorNotification n = false) ∧
    (processMessage a c store qs m).qs = messageFailed qs m.gmailMessageId ∧
    (processMessage a c store qs m).threw = some e := by
  rcases h with hex | ⟨ex, hex, hllm⟩ | ⟨ex, resp, hex, hllm, ha, hsend⟩
  · simp only [processMessage, hex]
    exact failPath_spec _ _ _ _ _ (by intro n hn; cases hn)
  · simp only [processMessage, hex, hllm]
    refine failPath_spec _ _ _ _ _ ?_
    intro n hn
    by_cases hnm : nameMatches ex.tenantName m.tenantName = true
    · rw [if_pos hnm] at hn; cases hn
    · rw [if_neg hnm] at hn
      obtain rfl := List.mem_singleton.mp hn
      rfl
  · subst ha
    simp only [processMessage, hex, hllm, hsend, if_true]
    refine failPath_spec _ _ _ _ _ ?_
    intro n hn
    by_cases hnm : nameMatches ex.tenantName m.tenantName = true
    · rw [if_pos hnm] at hn; cases hn
    · rw [if_neg hnm] at hn
      obtain rfl := List.mem_singleton.mp hn
      rfl

/-- C6 witness: an Extract failure takes the full error path. -/
theorem claim_C6_witness :
    ((⟨Except.error "login page shown", Except.ok "x", Except.ok ()⟩ : Collab).extractResult =
        Except.error "login page shown" ∨
      (∃ ex, (⟨Except.error "login page shown", Except.ok "x",
            Except.ok ()⟩ : Collab).extractResult = Except.ok ex ∧
        (⟨Except.error "login page shown", Except.ok "x",
            Except.ok ()⟩ : Collab).llmResult = Except.error "login page shown") ∨
      (∃ ex resp, (⟨Except.error "login page shown", Except.ok "x",
            Except.ok ()⟩ : Collab).extractResult = Except.ok ex ∧
        (⟨Except.error "login page shown", Except.ok "x",
            Except.ok ()⟩ : Collab).llmResult = Except.ok resp ∧
        false = true ∧
        (⟨Except.error "login page shown", Except.ok "x",
            Except.ok ()⟩ : Collab).sendResult = Except.error "login page shown")) ∧
    (processMessage false ⟨Except.error "login page shown", Except.ok "x", Except.ok ()⟩
      [⟨"m3", "Cy D", none, "Booking Inquiry from Cy D", none, Status.pending, none, none⟩]
      (initQueue 3)
      ⟨"m3", "Cy D", none, "Booking Inquiry from Cy D", 0⟩).threw =
      some "login page shown" :=
  ⟨Or.inl rfl,
    (claim_C6_error_path false ⟨Except.error "login page shown", Except.ok "x", Except.ok ()⟩
      [⟨"m3", "Cy D", none, "Booking Inquiry from Cy D", none, Status.pending, none, none⟩]
      (initQueue 3)
      ⟨"m3", "Cy D", none, "Booking Inquiry from Cy D", 0⟩
      "login page shown" (Or.inl rfl)).2.2.2.2⟩

/-- C7: with auto-send disabled and Extract and Generate succeeding, the
pipeline emits exactly one approval notification carrying the generated
text, the extracted tenant message, and the conversation reference, sets the
record's status back to `pending`, and signals the queue `complete`; in the
literal "Nancy E" scenario the queue ends empty with exactly that one
approval notification and a `pending` record. -/
theorem claim_C7_approval_flow :
    (∀ (c : Collab) (store : List Record) (qs : QueueState) (m : QueuedMessage)
        (ex : ExtractedData) (resp : String),
      c.extractResult = Except.ok ex → c.llmResult = Except.ok resp →
      (processMessage false c store qs m).notifications.countP isApproval = 1 ∧
      Notification.approval ex.tenantName ex.tenantMessage resp ex.conversationUrl ∈
        (processMessage false c store qs m).notifications ∧
      (∀ r, getRecord (processMessage false c store qs m).store m.gmailMessageId =
          some r → r.status = Status.pending) ∧
      (processMessage false c store qs m).qs = messageProcessed qs m.gmailMessageId) ∧
    ((processMessage false
        { extractResult := Except.ok
            { tenantName := "Nancy E",
              tenantMessage := "Hi, is the place pet friendly?",
              conversationUrl := "https://ff/conv/1" },
          llmResult := Except.ok "Yes, we welcome well-behaved pets...",
          sendResult := Except.ok () }
        [{ gmail_message_id := "m1", tenant_name := "Nancy E", tenant_email := none,
           tenant_message := "Booking Inquiry from Nancy E", our_response := none,
           status := Status.pending, error := none, ff_conversation_url := none }]
        (enqueue (initQueue 3) "m1" "Nancy E" none "Booking Inquiry from Nancy E")
        { gmailMessageId := "m1", tenantName := "Nancy E", tenantEmail := none,
          tenantMessage := "Booking Inquiry from Nancy E", retryCount := 0 }).notifications =
      [Notification.approval "Nancy E" "Hi, is the place pet friendly?"
        "Yes, we welcome well-behaved pets..." "https://ff/conv/1"] ∧
    (getRecord (processMessage false
        { extractResult := Except.ok
            { tenantName := "Nancy E",
              tenantMessage := "Hi, is the place pet friendly?",
              conversationUrl := "https://ff/conv/1" },
          llmResult := Except.ok "Yes, we welcome well-behaved pets...",
          sendResult := Except.ok () }
        [{ gmail_message_id := "m1", tenant_name := "Nancy E", tenant_email := none,
           tenant_message := "Booking Inquiry from Nancy E", our_response := none,
           status := Status.pending, error := none, ff_conversation_url := none }]
        (enqueue (initQueue 3) "m1" "Nancy E" none "Booking Inquiry from Nancy E")
        { gmailMessageId := "m1", tenantName := "Nancy E", tenantEmail := none,
          tenantMessage := "Booking Inquiry from Nancy E", retryCount := 0 }).store
        "m1").map (fun r => r.status) = some Status.pending ∧
    (processMessage false
        { extractResult := Except.ok
            { tenantName := "Nancy E",
              tenantMessage := "Hi, is the place pet friendly?",
              conversationUrl := "https://ff/conv/1" },
          llmResult := Except.ok "Yes, we welcome well-behaved pets...",
          sendResult := Except.ok () }
        [{ gmail_message_id := "m1", tenant_name := "Nancy E", tenant_email := none,
           tenant_message := "Booking Inquiry from Nancy E", our_response := none,
           status := Status.pending, error := none, ff_conversation_url := none }]
        (enqueue (initQueue 3) "m1" "Nancy E" none "Booking Inquiry from Nancy E")
        { gmailMessageId := "m1", tenantName := "Nancy E", tenantEmail := none,
          tenantMessage := "Booking Inquiry from Nancy E", retryCount := 0 }).qs.queue =
      []) := by
  constructor
  · intro c store qs m ex resp hex hllm
    simp only [processMessage, hex, hllm, Bool.false_eq_true, if_false]
    refine ⟨?_, ?_, ?_, by trivial⟩
    · rw [List.countP_append]
      have hwz : (if nameMatches ex.tenantName m.tenantName = true
          then ([] : List Notification)
          else [Notification.mismatch m.gmailMessageId m.tenantName]).countP isApproval = 0 := by
        by_cases hnm : nameMatches ex.tenantName m.tenantName = true
        · rw [if_pos hnm]; rfl
        · rw [if_neg hnm]; rfl
      rw [hwz]
      rfl
    · simp
    · intro r hr
      rw [getRecord_updateStatus_self] at hr
      cases hg : getRecord (updateResponse (updateResponse
          (updateStatus store m.gmailMessageId Status.processing none)
          m.gmailMessageId ex.tenantMessage) m.gmailMessageId resp)
          m.gmailMessageId with
      | none => rw [hg] at hr; simp at hr
      | some r0 =>
        rw [hg] at hr
        simp only [Option.map_some', Option.some.injEq] at hr
        rw [← hr]
  · refine ⟨by decide, by decide, by decide⟩

/-- C7 witness: the general approval-path conclusions at the Nancy E
inputs. -/
theorem claim_C7_witness :
    ({ extractResult := Except.ok
         { tenantName := "Nancy E", tenantMessage := "Hi, is the place pet friendly?",
           conversationUrl := "https://ff/conv/1" },
       llmResult := Except.ok "Yes, we welcome well-behaved pets...",
       sendResult := Except.ok () } : Collab).extractResult = Except.ok
         { tenantName := "Nancy E", tenantMessage := "Hi, is the place pet friendly?",
           conversationUrl := "https://ff/conv/1" } ∧
    (processMessage false
      { extractResult := Except.ok
          { tenantName := "Nancy E", tenantMessage := "Hi, is the place pet friendly?",
            conversationUrl := "https://ff/conv/1" },
        llmResult := Except.ok "Yes, we welcome well-behaved pets...",
        sendResult := Except.ok () }
      [{ gmail_message_id := "m1", tenant_name := "Nancy E", tenant_email := none,
         tenant_message := "Booking Inquiry from Nancy E", our_response := none,
         status := Status.pending, error := none, ff_conversation_url := none }]
      (enqueue (initQueue 3) "m1" "Nancy E" none "Booking Inquiry from Nancy E")
      { gmailMessageId := "m1", tenantName := "Nancy E", tenantEmail := none,
        tenantMessage := "Booking Inquiry from Nancy E",
        retryCount := 0 }).notifications.countP isApproval = 1 :=
  ⟨rfl,
    (claim_C7_approval_flow.1
      { extractResult := Except.ok
          { tenantName := "Nancy E", tenantMessage := "Hi, is the place pet friendly?",
            conversationUrl := "https://ff/conv/1" },
        llmResult := Except.ok "Yes, we welcome well-behaved pets...",
        sendResult := Except.ok () }
      [{ gmail_message_id := "m1", tenant_name := "Nancy E", tenant_email := none,
         tenant_message := "Booking Inquiry from Nancy E", our_response := none,
         status := Status.pending, error := none, ff_conversation_url := none }]
      (enqueue (initQueue 3) "m1" "Nancy E" none "Booking Inquiry from Nancy E")
      { gmailMessageId := "m1", tenantName := "Nancy E", tenantEmail := none,
        tenantMessage := "Booking Inquiry from Nancy E", retryCount := 0 }
      { tenantName := "Nancy E", tenantMessage := "Hi, is the place pet friendly?",
        conversationUrl := "https://ff/conv/1" }
      "Yes, we welcome well-behaved pets..." rfl rfl).1⟩

theorem processNext_maxRetries (s : QueueState) :
    (processNext s).maxRetries = s.maxRetries := by
  cases h : s.queue <;> simp [processNext, h]

theorem enqueue_maxRetries (s : QueueState) (id name : String)
    (email : Option String) (msg : String) :
    (enqueue s id name email msg).maxRetries = s.maxRetries := by
  cases hp : s.processing <;> simp [enqueue, hp, processNext_maxRetries]

theorem messageProcessed_maxRetries (s : QueueState) (id : String) :
    (messageProcessed s id).maxRetries = s.maxRetries := by
  cases hf : findRemove (fun m => m.gmailMessageId == id) s.queue with
  | none => simp [messageProcessed, hf]
  | some pr =>
    obtain ⟨m, rest⟩ := pr
    simp [messageProcessed, hf, processNext_maxRetries]

theorem messageFailed_maxRetries (s : QueueState) (id : String) :
    (messageFailed s id).maxRetries = s.maxRetries := by
  cases hf : findRemove (fun m => m.gmailMessageId == id) s.queue with
  | none => simp [messageFailed, hf]
  | some pr =>
    obtain ⟨m, rest⟩ := pr
    by_cases hge : m.retryCount + 1 ≥ s.maxRetries
    · simp [messageFailed, hf, hge, processNext_maxRetries]
    · simp [messageFailed, hf, hge, processNext_maxRetries]

theorem applyOp_maxRetries (s : QueueState) (op : QOp) :
    (applyOp s op).maxRetries = s.maxRetries := by
  cases op with
  | enq id name email msg => exact enqueue_maxRetries s id name email msg
  | complete id => exact messageProcessed_maxRetries s id
  | fail id => exact messageFailed_maxRetries s id

theorem runQueue_maxRetries (ops : List QOp) :
    ∀ s : QueueState, (runQueue s ops).maxRetries = s.maxRetries := by
  induction ops with
  | nil => intro s; rfl
  | cons op rest ih =>
    intro s
    exact (ih (applyOp s op)).trans (applyOp_maxRetries s op)

theorem processNext_preserves (s : QueueState)
    (hq : ∀ m ∈ s.queue, m.retryCount < s.maxRetries)
    (he : ∀ ev ∈ s.events, eventOk s.maxRetries ev) :
    (∀ m ∈ (processNext s).queue, m.retryCount < (processNext s).maxRetries) ∧
    (∀ ev ∈ (processNext s).events, eventOk (processNext s).maxRetries ev) := by
  rw [processNext_queue, processNext_maxRetries]
  refine ⟨hq, ?_⟩
  cases h : s.queue with
  | nil =>
    have hev : (processNext s).events = s.events := by simp [processNext, h]
    rw [hev]
    exact he
  | cons m t =>
    have hev : (processNext s).events = s.events ++ [QEvent.dispatched m] := by
      simp [processNext, h]
    rw [hev]
    intro ev hevm
    rcases List.mem_append.mp hevm with hl | hr
    · exact he ev hl
    · rw [List.mem_singleton] at hr
      subst hr
      exact hq m (h ▸ List.mem_cons_self m t)

theorem enqueue_preserves (s : QueueState) (id name : String)
    (email : Option String) (msg : String) (hk : 1 ≤ s.maxRetries)
    (hq : ∀ m ∈ s.queue, m.retryCount < s.maxRetries)
    (he : ∀ ev ∈ s.events, eventOk s.maxRetries ev) :
    (∀ m ∈ (enqueue s id name email msg).queue,
      m.retryCount < (enqueue s id name email msg).maxRetries) ∧
    (∀ ev ∈ (enqueue s id name email msg).events,
      eventOk (enqueue s id name email msg).maxRetries ev) := by
  have hq1 : ∀ m ∈ s.queue ++ [(⟨id, name, email, msg, 0⟩ : QueuedMessage)],
      m.retryCount < s.maxRetries := by
    intro m hm
    rcases List.mem_append.mp hm with hl | hr
    · exact hq m hl
    · rw [List.mem_singleton] at hr
      subst hr
      exact hk
  by_cases hp : s.processing = true
  · have : enqueue s id name email msg =
        { s with queue := s.queue ++ [(⟨id, name, email, msg, 0⟩ : QueuedMessage)] } := by
      simp [enqueue, hp]
    rw [this]
    exact ⟨hq1, he⟩
  · have : enqueue s id name email msg =
        processNext { s with
          queue := s.queue ++ [(⟨id, name, email, msg, 0⟩ : QueuedMessage)] } := by
      simp [enqueue, hp]
    rw [this]
    exact processNext_preserves _ hq1 he

theorem messageProcessed_preserves (s : QueueState) (id : String)
    (hq : ∀ m ∈ s.queue, m.retryCount < s.maxRetries)
    (he : ∀ ev ∈ s.events, eventOk s.maxRetries ev) :
    (∀ m ∈ (messageProcessed s id).queue,
      m.retryCount < (messageProcessed s id).maxRetries) ∧
    (∀ ev ∈ (messageProcessed s id).events,
      eventOk (messageProcessed s id).maxRetries ev) := by
  cases hf : findRemove (fun m => m.gmailMessageId == id) s.queue with
  | none =>
    have : messageProcessed s id = s := by simp [messageProcessed, hf]
    rw [this]
    exact ⟨hq, he⟩
  | some pr =>
    obtain ⟨m, rest⟩ := pr
    obtain ⟨hpm, hperm⟩ := findRemove_some _ hf
    have hmem : ∀ x ∈ m :: rest, x ∈ s.queue := fun x hx => hperm.mem_iff.mpr hx
    have : messageProcessed s id = processNext
        { s with queue := rest,
                 inFlight := eraseFirst (fun x => x.gmailMessageId == id) s.inFlight,
                 events := s.events ++ [QEvent.completed m] } := by
      simp [messageProcessed, hf]
    rw [this]
    refine processNext_preserves _ ?_ ?_
    · intro x hx
      exact hq x (hmem x (List.mem_cons_of_mem m hx))
    · intro ev hev
      rcases List.mem_append.mp hev with hl | hr
      · exact he ev hl
      · rw [List.mem_singleton] at hr
        subst hr
        exact hq m (hmem m (List.mem_cons_self m rest))

theorem messageFailed_preserves (s : QueueState) (id : String)
    (hq : ∀ m ∈ s.queue, m.retryCount < s.maxRetries)
    (he : ∀ ev ∈ s.events, eventOk s.maxRetries ev) :
    (∀ m ∈ (messageFailed s id).queue,
      m.retryCount < (messageFailed s id).maxRetries) ∧
    (∀ ev ∈ (messageFailed s id).events,
      eventOk (messageFailed s id).maxRetries ev) := by
  cases hf : findRemove (fun m => m.gmailMessageId == id) s.queue with
  | none =>
    have : messageFailed s id = s := by simp [messageFailed, hf]
    rw [this]
    exact ⟨hq, he⟩
  | some pr =>
    obtain ⟨m, rest⟩ := pr
    obtain ⟨hpm, hperm⟩ := findRemove_some _ hf
    have hmem : ∀ x ∈ m :: rest, x ∈ s.queue := fun x hx => hperm.mem_iff.mpr hx
    have hmlt : m.retryCount < s.maxRetries := hq m (hmem m (List.mem_cons_self m rest))
    have hrest : ∀ x ∈ rest, x.retryCount < s.maxRetries := fun x hx =>
      hq x (hmem x (List.mem_cons_of_mem m hx))
    by_cases hge : m.retryCount + 1 ≥ s.maxRetries
    · have heq : m.retryCount + 1 = s.maxRetries := Nat.le_antisymm hmlt hge
      have : messageFailed s id = processNext
          { s with queue := rest,
                   inFlight := eraseFirst (fun x => x.gmailMessageId == id) s.inFlight,
                   events := s.events ++
                     [QEvent.terminallyFailed { m with retryCount := m.retryCount + 1 }] } := by
        simp [messageFailed, hf, hge]
      rw [this]
      refine processNext_preserves _ hrest ?_
      intro ev hev
      rcases List.mem_append.mp hev with hl | hr
      · exact he ev hl
      · rw [List.mem_singleton] at hr
        subst hr
        exact heq
    · have : messageFailed s id = processNext
          { s with queue := rest ++ [{ m with retryCount := m.retryCount + 1 }],
                   inFlight := eraseFirst (fun x => x.gmailMessageId == id) s.inFlight } := by
        simp [messageFailed, hf, hge]
      rw [this]
      refine processNext_preserves _ ?_ he
      intro x hx
      rcases List.mem_append.mp hx with hl | hr
      · exact hrest x hl
      · rw [List.mem_singleton] at hr
        subst hr
        exact Nat.lt_of_not_le (fun hc => hge hc)

theorem boundedInv_run (ops : List QOp) :
    ∀ s : QueueState, 1 ≤ s.maxRetries →
      (∀ m ∈ s.queue, m.retryCount < s.maxRetries) →
      (∀ ev ∈ s.events, eventOk s.maxRetries ev) →
      (∀ m ∈ (runQueue s ops).queue, m.retryCount < (runQueue s ops).maxRetries) ∧
      (∀ ev ∈ (runQueue s ops).events, eventOk (runQueue s ops).maxRetries ev) := by
  induction ops with
  | nil => intro s _ hq he; exact ⟨hq, he⟩
  | cons op rest ih =>
    intro s hk hq he
    have hstep : (∀ m ∈ (applyOp s op).queue,
        m.retryCount < (applyOp s op).maxRetries) ∧
        (∀ ev ∈ (applyOp s op).events, eventOk (applyOp s op).maxRetries ev) := by
      cases op with
      | enq id name email msg => exact enqueue_preserves s id name email msg hk hq he
      | complete id => exact messageProcessed_preserves s id hq he
      | fail id => exact messageFailed_preserves s id hq he
    have hk' : 1 ≤ (applyOp s op).maxRetries := by
      rw [applyOp_maxRetries]; exact hk
    exact ih (applyOp s op) hk' hstep.1 hstep.2

theorem messageFailed_absent (s : QueueState) (id : String)
    (h : ∀ m ∈ s.queue, m.gmailMessageId ≠ id) : messageFailed s id = s := by
  have hf : findRemove (fun m => m.gmailMessageId == id) s.queue = none :=
    findRemove_eq_none _ _ (fun x hx => by simpa using h x hx)
  simp [messageFailed, hf]

/-- C1: bounded retry.  (1) For every `maxRetries ≥ 1` and every operation
sequence, each queued item's `retry_count` stays strictly below `maxRetries`
and every terminal-failure emission carries exactly `maxRetries`, so
`retry_count` never exceeds `max_retries`.  (2) A `fail` for an id no longer
queued is a strict no-op, so the terminal removal and its signal cannot
happen twice.  (3) With `max_retries = 3` and a failure on every attempt:
after 2 fails the item is still queued with `retry_count = 2`, the 3rd fail
removes it permanently with exactly one terminal-failure emission, and a 4th
fail changes nothing. -/
theorem claim_C1_bounded_retry :
    (∀ (k : Nat) (ops : List QOp), 1 ≤ k →
      (∀ m ∈ (runQueue (initQueue k) ops).queue, m.retryCount < k) ∧
      (∀ m, QEvent.terminallyFailed m ∈ (runQueue (initQueue k) ops).events →
        m.retryCount = k)) ∧
    (∀ (s : QueueState) (id : String),
      (∀ m ∈ s.queue, m.gmailMessageId ≠ id) → messageFailed s id = s) ∧
    ((runQueue (initQueue 3)
        [QOp.enq "m1" "Al" none "hi", QOp.fail "m1", QOp.fail "m1"]).queue =
      [{ gmailMessageId := "m1", tenantName := "Al", tenantEmail := none,
         tenantMessage := "hi", retryCount := 2 }] ∧
    (runQueue (initQueue 3)
        [QOp.enq "m1" "Al" none "hi", QOp.fail "m1", QOp.fail "m1",
         QOp.fail "m1"]).queue = [] ∧
    terminalEventCount (runQueue (initQueue 3)
        [QOp.enq "m1" "Al" none "hi", QOp.fail "m1", QOp.fail "m1",
         QOp.fail "m1"]) "m1" = 1 ∧
    messageFailed (runQueue (initQueue 3)
        [QOp.enq "m1" "Al" none "hi", QOp.fail "m1", QOp.fail "m1",
         QOp.fail "m1"]) "m1" =
      runQueue (initQueue 3)
        [QOp.enq "m1" "Al" none "hi", QOp.fail "m1", QOp.fail "m1",
         QOp.fail "m1"]) := by
  refine ⟨?_, messageFailed_absent, by decide, by decide, by decide, by decide⟩
  intro k ops hk
  have hmr : (runQueue (initQueue k) ops).maxRetries = k :=
    runQueue_maxRetries ops (initQueue k)
  have hinv := boundedInv_run ops (initQueue k) hk
    (by intro m hm; cases hm) (by intro ev hev; cases hev)
  constructor
  · intro m hm
    have := hinv.1 m hm
    rw [hmr] at this
    exact this
  · intro m hm
    have := hinv.2 (QEvent.terminallyFailed m) hm
    rw [hmr] at this
    exact this

/-- C1 witness: the invariants at `max_retries = 3` after the three-failure
scenario, and the no-op `fail` on an empty queue. -/
theorem claim_C1_witness :
    ((1 : Nat) ≤ 3 ∧
      (∀ m ∈ (runQueue (initQueue 3)
          [QOp.enq "m1" "Al" none "hi", QOp.fail "m1", QOp.fail "m1",
           QOp.fail "m1"]).queue, m.retryCount < 3)) ∧
    ((∀ m ∈ (initQueue 3).queue, m.gmailMessageId ≠ "zz") ∧
      messageFailed (initQueue 3) "zz" = initQueue 3) :=
  ⟨⟨by decide,
      (claim_C1_bounded_retry.1 3
        [QOp.enq "m1" "Al" none "hi", QOp.fail "m1", QOp.fail "m1", QOp.fail "m1"]
        (by decide)).1⟩,
    ⟨(by intro m hm; cases hm),
      claim_C1_bounded_retry.2.1 (initQueue 3) "zz" (by intro m hm; cases hm)⟩⟩

theorem queue_of_head? {l : List QueuedMessage} {m : QueuedMessage}
    (h : l.head? = some m) : ∃ t, l = m :: t := by
  cases hq : l with
  | nil => rw [hq] at h; cases h
  | cons a t =>
    rw [hq] at h
    simp only [List.head?_cons, Option.some.injEq] at h
    exact ⟨t, by rw [h]⟩

theorem eraseFirst_singleton_pos (p : α → Bool) (x : α) (h : p x = true) :
    eraseFirst p [x] = [] := by
  simp [eraseFirst, findRemove, h]

theorem messageProcessed_eq (s : QueueState) (m : QueuedMessage)
    (t : List QueuedMessage) (id : String) (hq : s.queue = m :: t)
    (hm : (m.gmailMessageId == id) = true) :
    messageProcessed s id = processNext
      { s with queue := t,
               inFlight := eraseFirst (fun x => x.gmailMessageId == id) s.inFlight,
               events := s.events ++ [QEvent.completed m] } := by
  have hf : findRemove (fun x => x.gmailMessageId == id) s.queue = some (m, t) := by
    rw [hq]; exact findRemove_cons_pos _ _ _ hm
  simp [messageProcessed, hf]

theorem messageFailed_eq_exhaust (s : QueueState) (m : QueuedMessage)
    (t : List QueuedMessage) (id : String) (hq : s.queue = m :: t)
    (hm : (m.gmailMessageId == id) = true)
    (hge : m.retryCount + 1 ≥ s.maxRetries) :
    messageFailed s id = processNext
      { s with queue := t,
               inFlight := eraseFirst (fun x => x.gmailMessageId == id) s.inFlight,
               events := s.events ++
                 [QEvent.terminallyFailed { m with retryCount := m.retryCount + 1 }] } := by
  have hf : findRemove (fun x => x.gmailMessageId == id) s.queue = some (m, t) := by
    rw [hq]; exact findRemove_cons_pos _ _ _ hm
  simp [messageFailed, hf, hge]

theorem messageFailed_eq_retry (s : QueueState) (m : QueuedMessage)
    (t : List QueuedMessage) (id : String) (hq : s.queue = m :: t)
    (hm : (m.gmailMessageId == id) = true)
    (hlt : ¬ m.retryCount + 1 ≥ s.maxRetries) :
    messageFailed s id = processNext
      { s with queue := t ++ [{ m with retryCount := m.retryCount + 1 }],
               inFlight := eraseFirst (fun x => x.gmailMessageId == id) s.inFlight } := by
  have hf : findRemove (fun x => x.gmailMessageId == id) s.queue = some (m, t) := by
    rw [hq]; exact findRemove_cons_pos _ _ _ hm
  simp [messageFailed, hf, hlt]

theorem atMostOne_preserved (s : QueueState) (op : QOp)
    (hok : opOk s op = true) (hinv : atMostOneInv s) :
    atMostOneInv (applyOp s op) := by
  obtain ⟨hbusy, hidle⟩ := hinv
  cases op with
  | enq id name email msg =>
    show atMostOneInv (enqueue s id name email msg)
    by_cases hp : s.processing = true
    · have heq : enqueue s id name email msg =
          { s with queue := s.queue ++ [(⟨id, name, email, msg, 0⟩ : QueuedMessage)] } := by
        simp [enqueue, hp]
      rw [heq]
      obtain ⟨m, hif, hhd⟩ := hbusy hp
      obtain ⟨t, ht⟩ := queue_of_head? hhd
      constructor
      · intro _
        exact ⟨m, hif, by rw [ht]; rfl⟩
      · intro hfalse
        rw [hp] at hfalse
        cases hfalse
    · have hif : s.inFlight = [] := hidle (by simpa using hp)
      have heq : enqueue s id name email msg =
          processNext { s with
            queue := s.queue ++ [(⟨id, name, email, msg, 0⟩ : QueuedMessage)] } := by
        simp [enqueue, hp]
      cases hq : s.queue with
      | nil =>
        rw [heq, hq]
        refine ⟨fun _ => ⟨⟨id, name, email, msg, 0⟩, ?_, rfl⟩, fun hc => by cases hc⟩
        show s.inFlight ++ [(⟨id, name, email, msg, 0⟩ : QueuedMessage)] =
          [(⟨id, name, email, msg, 0⟩ : QueuedMessage)]
        rw [hif]
        rfl
      | cons a t =>
        rw [heq, hq]
        refine ⟨fun _ => ⟨a, ?_, rfl⟩, fun hc => by cases hc⟩
        show s.inFlight ++ [a] = [a]
        rw [hif]
        rfl
  | complete id =>
    have hne : s.inFlight ≠ [] := by
      intro hemp
      rw [opOk, hemp] at hok
      cases hok
    have hp : s.processing = true := by
      by_contra hc
      exact hne (hidle (by simpa using hc))
    obtain ⟨m, hif, hhd⟩ := hbusy hp
    obtain ⟨t, ht⟩ := queue_of_head? hhd
    have hmid : (m.gmailMessageId == id) = true := by
      rw [opOk, hif] at hok
      simpa using hok
    have hif0 : eraseFirst (fun x => x.gmailMessageId == id) s.inFlight = [] := by
      rw [hif]
      exact eraseFirst_singleton_pos _ _ hmid
    show atMostOneInv (messageProcessed s id)
    cases hct : t with
    | nil =>
      rw [messageProcessed_eq s m t id ht hmid, hct]
      exact ⟨fun hc => (by cases hc), fun _ => hif0⟩
    | cons b u =>
      rw [messageProcessed_eq s m t id ht hmid, hct]
      refine ⟨fun _ => ⟨b, ?_, rfl⟩, fun hc => by cases hc⟩
      show eraseFirst (fun x => x.gmailMessageId == id) s.inFlight ++ [b] = [b]
      rw [hif0]
      rfl
  | fail id =>
    have hne : s.inFlight ≠ [] := by
      intro hemp
      rw [opOk, hemp] at hok
      cases hok
    have hp : s.processing = true := by
      by_contra hc
      exact hne (hidle (by simpa using hc))
    obtain ⟨m, hif, hhd⟩ := hbusy hp
    obtain ⟨t, ht⟩ := queue_of_head? hhd
    have hmid : (m.gmailMessageId == id) = true := by
      rw [opOk, hif] at hok
      simpa using hok
    have hif0 : eraseFirst (fun x => x.gmailMessageId == id) s.inFlight = [] := by
      rw [hif]
      exact eraseFirst_singleton_pos _ _ hmid
    show atMostOneInv (messageFailed s id)
    by_cases hge : m.retryCount + 1 ≥ s.maxRetries
    · cases hct : t with
      | nil =>
        rw [messageFailed_eq_exhaust s m t id ht hmid hge, hct]
        exact ⟨fun hc => (by cases hc), fun _ => hif0⟩
      | cons b u =>
        rw [messageFailed_eq_exhaust s m t id ht hmid hge, hct]
        refine ⟨fun _ => ⟨b, ?_, rfl⟩, fun hc => by cases hc⟩
        show eraseFirst (fun x => x.gmailMessageId == id) s.inFlight ++ [b] = [b]
        rw [hif0]
        rfl
    · cases hct : t with
      | nil =>
        rw [messageFailed_eq_retry s m t id ht hmid hge, hct]
        refine ⟨fun _ => ⟨{ m with retryCount := m.retryCount + 1 }, ?_, rfl⟩,
          fun hc => by cases hc⟩
        show eraseFirst (fun x => x.gmailMessageId == id) s.inFlight ++
          [{ m with retryCount := m.retryCount + 1 }] =
          [{ m with retryCount := m.retryCount + 1 }]
        rw [hif0]
        rfl
      | cons b u =>
        rw [messageFailed_eq_retry s m t id ht hmid hge, hct]
        refine ⟨fun _ => ⟨b, ?_, rfl⟩, fun hc => by cases hc⟩
        show eraseFirst (fun x => x.gmailMessageId == id) s.inFlight ++ [b] = [b]
        rw [hif0]
        rfl

theorem atMostOneInv_run (ops : List QOp) :
    ∀ s : QueueState, disciplined s ops = true → atMostOneInv s →
      atMostOneInv (runQueue s ops) := by
  induction ops with
  | nil => intro s _ hinv; exact hinv
  | cons op rest ih =>
    intro s hd hinv
    rw [disciplined] at hd
    obtain ⟨hok, hd'⟩ := Bool.and_eq_true_iff.mp hd
    exact ih (applyOp s op) hd' (atMostOne_preserved s op hok hinv)

/-- C5: under the discipline that `complete`/`fail` are only invoked for the
currently dispatched item, at most one item is ever in the
handed-to-the-orchestrator state: after any disciplined call sequence the
in-flight list has length at most one. -/
theorem claim_C5_at_most_one_processing (k : Nat) (ops : List QOp)
    (h : disciplined (initQueue k) ops = true) :
    (runQueue (initQueue k) ops).inFlight.length ≤ 1 := by
  have hinv := atMostOneInv_run ops (initQueue k) h
    ⟨fun hc => (by cases hc), fun _ => rfl⟩
  obtain ⟨hbusy, hidle⟩ := hinv
  cases hp : (runQueue (initQueue k) ops).processing with
  | false =>
    rw [hidle hp]
    exact Nat.zero_le 1
  | true =>
    obtain ⟨m, hif, _⟩ := hbusy hp
    rw [hif]
    exact Nat.le.refl

/-- C5 witness: a disciplined two-item run keeps at most one item in
flight. -/
theorem claim_C5_witness :
    disciplined (initQueue 3)
      [QOp.enq "a" "A" none "x", QOp.enq "b" "B" none "y",
       QOp.complete "a", QOp.complete "b"] = true ∧
    (runQueue (initQueue 3)
      [QOp.enq "a" "A" none "x", QOp.enq "b" "B" none "y",
       QOp.complete "a", QOp.complete "b"]).inFlight.length ≤ 1 :=
  ⟨by decide,
    claim_C5_at_most_one_processing 3
      [QOp.enq "a" "A" none "x", QOp.enq "b" "B" none "y",
       QOp.complete "a", QOp.complete "b"] (by decide)⟩

theorem completeEvents_spec :
    ∀ (l : List QueuedMessage) (a : QueuedMessage), l ≠ [] →
      ∃ E, completeEvents l a = E ++ [QEvent.dispatched a] ∧
        (∀ m ∈ l, QEvent.completed m ∈ E) ∧
        (∀ x, QEvent.dispatched x ∈ E → x ∈ l) := by
  intro l
  induction l with
  | nil => intro a h; exact absurd rfl h
  | cons m rest ih =>
    intro a _
    rcases rest with _ | ⟨r, u⟩
    · refine ⟨[QEvent.completed m], rfl, ?_, ?_⟩
      · intro m' hm'
        obtain rfl := List.mem_singleton.mp hm'
        exact List.mem_singleton.mpr rfl
      · intro x hx
        rw [List.mem_singleton] at hx
        cases hx
    · obtain ⟨E', hE', hcomp', hdisp'⟩ := ih a (by simp)
      refine ⟨QEvent.completed m :: QEvent.dispatched r :: E', ?_, ?_, ?_⟩
      · show QEvent.completed m :: QEvent.dispatched ((r :: u).headD a) ::
          completeEvents (r :: u) a =
          (QEvent.completed m :: QEvent.dispatched r :: E') ++ [QEvent.dispatched a]
        rw [List.headD_cons, hE']
        rfl
      · intro m' hm'
        rcases List.mem_cons.mp hm' with rfl | hm''
        · exact List.mem_cons_self _ _
        · exact List.mem_cons_of_mem _ (List.mem_cons_of_mem _ (hcomp' m' hm''))
      · intro x hx
        rcases List.mem_cons.mp hx with hx1 | hx2
        · cases hx1
        · rcases List.mem_cons.mp hx2 with hx3 | hx4
          · have hxr : x = r := by injection hx3
            subst hxr
            exact List.mem_cons_of_mem _ (List.mem_cons_self _ _)
          · exact List.mem_cons_of_mem _ (hdisp' x hx4)

theorem runCompletes (a : QueuedMessage) :
    ∀ (l : List QueuedMessage) (s : QueueState), s.queue = l ++ [a] →
      (runQueue s (l.map (fun m => QOp.complete m.gmailMessageId))).queue = [a] ∧
      (runQueue s (l.map (fun m => QOp.complete m.gmailMessageId))).events =
        s.events ++ completeEvents l a := by
  intro l
  induction l with
  | nil =>
    intro s h
    exact ⟨by simpa using h, by simp [runQueue, completeEvents]⟩
  | cons m rest ih =>
    intro s h
    have hmm : (m.gmailMessageId == m.gmailMessageId) = true := by simp
    have hstep : applyOp s (QOp.complete m.gmailMessageId) =
        processNext
          { s with
            queue := rest ++ [a],
            inFlight := eraseFirst
              (fun x => x.gmailMessageId == m.gmailMessageId) s.inFlight,
            events := s.events ++ [QEvent.completed m] } :=
      messageProcessed_eq s m (rest ++ [a]) m.gmailMessageId h hmm
    rcases rest with _ | ⟨r, u⟩
    · constructor
      · show (applyOp s (QOp.complete m.gmailMessageId)).queue = [a]
        rw [hstep]
        rfl
      · show (applyOp s (QOp.complete m.gmailMessageId)).events =
          s.events ++ completeEvents [m] a
        rw [hstep]
        show (s.events ++ [QEvent.completed m]) ++ [QEvent.dispatched a] =
          s.events ++ completeEvents [m] a
        simp [completeEvents]
    · obtain ⟨ihq, ihe⟩ := ih (applyOp s (QOp.complete m.gmailMessageId))
        (by rw [hstep]; rfl)
      constructor
      · exact ihq
      · show (runQueue (applyOp s (QOp.complete m.gmailMessageId))
            ((r :: u).map (fun m => QOp.complete m.gmailMessageId))).events =
          s.events ++ completeEvents (m :: r :: u) a
        rw [ihe]
        rw [show (applyOp s (QOp.complete m.gmailMessageId)).events =
            (s.events ++ [QEvent.completed m]) ++ [QEvent.dispatched r] from
          by rw [hstep]; rfl]
        simp [completeEvents]

/-- C9: fair requeue.  If the dispatched head `A` fails with retries
remaining while `B` sits behind it, `A` moves to the tail (behind `B`), the
queue immediately dispatches the new head, and draining the requeued queue
by completing each dispatched item completes `B` strictly before `A`'s
retried attempt — the final dispatch of the bumped `A` — begins; `A` is not
dispatched anywhere earlier in that stretch. -/
theorem claim_C9_fair_requeue (s : QueueState) (A B : QueuedMessage)
    (rest : List QueuedMessage) (hq : s.queue = A :: rest) (hB : B ∈ rest)
    (hretry : A.retryCount + 1 < s.maxRetries)
    (hfresh : A.gmailMessageId ∉ rest.map (fun m => m.gmailMessageId)) :
    (messageFailed s A.gmailMessageId).queue =
      rest ++ [{ A with retryCount := A.retryCount + 1 }] ∧
    ∃ E, (runQueue (messageFailed s A.gmailMessageId)
        (rest.map (fun m => QOp.complete m.gmailMessageId))).events =
      s.events ++ (E ++ [QEvent.dispatched { A with retryCount := A.retryCount + 1 }]) ∧
      QEvent.completed B ∈ E ∧
      QEvent.dispatched { A with retryCount := A.retryCount + 1 } ∉ E := by
  have hlt : ¬ A.retryCount + 1 ≥ s.maxRetries := Nat.not_le.mpr hretry
  have hfail := messageFailed_eq_retry s A rest A.gmailMessageId hq (by simp) hlt
  have hqueue : (messageFailed s A.gmailMessageId).queue =
      rest ++ [{ A with retryCount := A.retryCount + 1 }] := by
    rw [hfail, processNext_queue]
  refine ⟨hqueue, ?_⟩
  rcases hrest : rest with _ | ⟨r, u⟩
  · rw [hrest] at hB; cases hB
  · rw [hrest] at hqueue hB hfresh hfail
    obtain ⟨hq', he'⟩ := runCompletes { A with retryCount := A.retryCount + 1 }
      (r :: u) (messageFailed s A.gmailMessageId) hqueue
    obtain ⟨E₀, hE₀, hcomp₀, hdisp₀⟩ := completeEvents_spec (r :: u)
      { A with retryCount := A.retryCount + 1 } (by simp)
    have hev : (messageFailed s A.gmailMessageId).events =
        s.events ++ [QEvent.dispatched r] := by
      rw [hfail]
      rfl
    refine ⟨QEvent.dispatched r :: E₀, ?_, ?_, ?_⟩
    · rw [he', hev, hE₀]
      simp
    · exact List.mem_cons_of_mem _ (hcomp₀ B hB)
    · intro hmem
      rcases List.mem_cons.mp hmem with h1 | h2
      · have hxr : ({ A with retryCount := A.retryCount + 1 } : QueuedMessage) = r := by
          injection h1
        apply hfresh
        have hid : A.gmailMessageId = r.gmailMessageId := by rw [← hxr]
        rw [List.map_cons, hid]
        exact List.mem_cons_self _ _
      · have hmem' := hdisp₀ _ h2
        apply hfresh
        exact List.mem_map_of_mem (fun m => m.gmailMessageId) hmem'

/-- C9 witness: with `A` then `B` queued, one failure of `A` moves it behind
`B`. -/
theorem claim_C9_witness :
    ((⟨[⟨"a", "A", none, "x", 0⟩, ⟨"b", "B", none, "y", 0⟩], true, 3,
        [⟨"a", "A", none, "x", 0⟩], []⟩ : QueueState).queue =
      (⟨"a", "A", none, "x", 0⟩ : QueuedMessage) :: [⟨"b", "B", none, "y", 0⟩] ∧
      (⟨"b", "B", none, "y", 0⟩ : QueuedMessage) ∈ [(⟨"b", "B", none, "y", 0⟩ : QueuedMessage)] ∧
      (⟨"a", "A", none, "x", 0⟩ : QueuedMessage).retryCount + 1 <
        (⟨[⟨"a", "A", none, "x", 0⟩, ⟨"b", "B", none, "y", 0⟩], true, 3,
          [⟨"a", "A", none, "x", 0⟩], []⟩ : QueueState).maxRetries ∧
      (⟨"a", "A", none, "x", 0⟩ : QueuedMessage).gmailMessageId ∉
        [(⟨"b", "B", none, "y", 0⟩ : QueuedMessage)].map (fun m => m.gmailMessageId)) ∧
    (messageFailed
        (⟨[⟨"a", "A", none, "x", 0⟩, ⟨"b", "B", none, "y", 0⟩], true, 3,
          [⟨"a", "A", none, "x", 0⟩], []⟩ : QueueState) "a").queue =
      [(⟨"b", "B", none, "y", 0⟩ : QueuedMessage)] ++ [⟨"a", "A", none, "x", 1⟩] :=
  ⟨⟨rfl, by decide, by decide, by decide⟩,
    (claim_C9_fair_requeue
      (⟨[⟨"a", "A", none, "x", 0⟩, ⟨"b", "B", none, "y", 0⟩], true, 3,
        [⟨"a", "A", none, "x", 0⟩], []⟩ : QueueState)
      ⟨"a", "A", none, "x", 0⟩ ⟨"b", "B", none, "y", 0⟩
      [⟨"b", "B", none, "y", 0⟩] rfl (by decide) (by decide) (by decide)).1⟩

theorem getRecord_updateStatus_self_status {s : List Record} {id : String}
    {st : Status} {e : Option String} {r : Record}
    (h : getRecord (updateStatus s id st e) id = some r) : r.status = st := by
  rw [getRecord_updateStatus_self] at h
  cases hg : getRecord s id with
  | none => rw [hg] at h; simp at h
  | some r0 =>
    rw [hg] at h
    simp only [Option.map_some', Option.some.injEq] at h
    rw [← h]

theorem processMessage_spec (a : Bool) (c : Collab) (store : List Record)
    (qs : QueueState) (m : QueuedMessage) :
    ∃ f, (processMessage a c store qs m).statusWrites = [Status.processing, f] ∧
      (f = Status.sent ∨ f = Status.pending ∨ f = Status.failed) ∧
      (((f = Status.sent ∨ f = Status.pending) ∧
        (processMessage a c store qs m).qs = messageProcessed qs m.gmailMessageId) ∨
       (f = Status.failed ∧
        (processMessage a c store qs m).qs = messageFailed qs m.gmailMessageId)) ∧
      (∀ id, id ≠ m.gmailMessageId →
        getRecord (processMessage a c store qs m).store id = getRecord store id) ∧
      (∀ r, getRecord (processMessage a c store qs m).store m.gmailMessageId =
        some r → r.status = f) ∧
      ((processMessage a c store qs m).store.map (fun r => r.gmail_message_id) =
        store.map (fun r => r.gmail_message_id)) := by
  cases hex : c.extractResult with
  | error e =>
    refine ⟨Status.failed, ?_⟩
    simp only [processMessage, hex, failPath]
    refine ⟨by trivial, by simp, Or.inr ⟨by trivial, by trivial⟩, ?_, ?_, ?_⟩
    · intro id hne
      rw [getRecord_updateStatus_ne _ _ _ _ _ hne, getRecord_updateStatus_ne _ _ _ _ _ hne]
    · intro r hr
      exact getRecord_updateStatus_self_status hr
    · rw [ids_updateStatus, ids_updateStatus]
  | ok ex =>
    cases hllm : c.llmResult with
    | error e =>
      refine ⟨Status.failed, ?_⟩
      simp only [processMessage, hex, hllm, failPath]
      refine ⟨by trivial, by simp, Or.inr ⟨by trivial, by trivial⟩, ?_, ?_, ?_⟩
      · intro id hne
        rw [getRecord_updateStatus_ne _ _ _ _ _ hne, getRecord_updateResponse_ne _ _ _ _ hne,
          getRecord_updateStatus_ne _ _ _ _ _ hne]
      · intro r hr
        exact getRecord_updateStatus_self_status hr
      · rw [ids_updateStatus, ids_updateResponse, ids_updateStatus]
    | ok resp =>
      cases a with
      | true =>
        cases hsend : c.sendResult with
        | error e =>
          refine ⟨Status.failed, ?_⟩
          simp only [processMessage, hex, hllm, hsend, if_true, failPath]
          refine ⟨by trivial, by simp, Or.inr ⟨by trivial, by trivial⟩, ?_, ?_, ?_⟩
          · intro id hne
            rw [getRecord_updateStatus_ne _ _ _ _ _ hne,
              getRecord_updateResponse_ne _ _ _ _ hne,
              getRecord_updateResponse_ne _ _ _ _ hne,
              getRecord_updateStatus_ne _ _ _ _ _ hne]
          · intro r hr
            exact getRecord_updateStatus_self_status hr
          · rw [ids_updateStatus, ids_updateResponse, ids_updateResponse,
              ids_updateStatus]
        | ok u =>
          refine ⟨Status.sent, ?_⟩
          simp only [processMessage, hex, hllm, hsend, if_true]
          refine ⟨by trivial, by simp, Or.inl ⟨by simp, by trivial⟩, ?_, ?_, ?_⟩
          · intro id hne
            rw [getRecord_updateStatus_ne _ _ _ _ _ hne,
              getRecord_updateResponse_ne _ _ _ _ hne,
              getRecord_updateResponse_ne _ _ _ _ hne,
              getRecord_updateStatus_ne _ _ _ _ _ hne]
          · intro r hr
            exact getRecord_updateStatus_self_status hr
          · rw [ids_updateStatus, ids_updateResponse, ids_updateResponse,
              ids_updateStatus]
      | false =>
        refine ⟨Status.pending, ?_⟩
        simp only [processMessage, hex, hllm, Bool.false_eq_true, if_false]
        refine ⟨by trivial, by simp, Or.inl ⟨by simp, by trivial⟩, ?_, ?_, ?_⟩
        · intro id hne
          rw [getRecord_updateStatus_ne _ _ _ _ _ hne,
            getRecord_updateResponse_ne _ _ _ _ hne,
            getRecord_updateResponse_ne _ _ _ _ hne,
            getRecord_updateStatus_ne _ _ _ _ _ hne]
        · intro r hr
          exact getRecord_updateStatus_self_status hr
        · rw [ids_updateStatus, ids_updateResponse, ids_updateResponse,
            ids_updateStatus]

theorem getRecord_append_left {store : List Record} {id : String} {r : Record}
    (l : List Record) (h : getRecord store id = some r) :
    getRecord (store ++ l) id = some r := by
  induction store with
  | nil => cases h
  | cons x xs ih =>
    rw [getRecord_cons] at h
    rw [List.cons_append, getRecord_cons]
    by_cases hbx : (x.gmail_message_id == id) = true
    · rw [if_pos hbx] at h ⊢; exact h
    · rw [if_neg hbx] at h ⊢; exact ih h

theorem getRecord_append_right_none {store : List Record} {id : String}
    (l : List Record) (h : getRecord store id = none) :
    getRecord (store ++ l) id = getRecord l id := by
  induction store with
  | nil => rfl
  | cons x xs ih =>
    rw [getRecord_cons] at h
    rw [List.cons_append, getRecord_cons]
    by_cases hbx : (x.gmail_message_id == id) = true
    · rw [if_pos hbx] at h; cases h
    · rw [if_neg hbx] at h
      rw [if_neg hbx]
      exact ih h

theorem getRecord_none_of_not_exists {store : List Record} {id : String}
    (h : messageExists store id = false) : getRecord store id = none := by
  cases hg : getRecord store id with
  | none => rfl
  | some r =>
    have := messageExists_iff.mpr ⟨r, hg⟩
    rw [this] at h
    cases h

theorem exists_getRecord_of_mem_ids {s : List Record} {id : String}
    (h : id ∈ s.map (fun r => r.gmail_message_id)) : ∃ r, getRecord s id = some r := by
  induction s with
  | nil => cases h
  | cons x xs ih =>
    by_cases hbx : (x.gmail_message_id == id) = true
    · exact ⟨x, by rw [getRecord_cons, if_pos hbx]⟩
    · rw [List.map_cons, List.mem_cons] at h
      have hxs : id ∈ xs.map (fun r => r.gmail_message_id) := by
        rcases h with h1 | h2
        · exact absurd (by simp [h1]) hbx
        · exact h2
      obtain ⟨r, hr⟩ := ih hxs
      exact ⟨r, by rw [getRecord_cons, if_neg hbx]; exact hr⟩

theorem mem_ids_of_getRecord {s : List Record} {id : String} {r : Record}
    (h : getRecord s id = some r) : id ∈ s.map (fun r => r.gmail_message_id) := by
  obtain ⟨hmem, hid⟩ := getRecord_mem h
  rw [← hid]
  exact List.mem_map_of_mem _ hmem

theorem messageProcessed_queue_head (qs : QueueState) (m : QueuedMessage)
    (t : List QueuedMessage) (hq : qs.queue = m :: t) :
    (messageProcessed qs m.gmailMessageId).queue = t := by
  rw [messageProcessed_eq qs m t m.gmailMessageId hq (by simp), processNext_queue]

theorem messageFailed_queue_head (qs : QueueState) (m : QueuedMessage)
    (t : List QueuedMessage) (hq : qs.queue = m :: t) :
    (messageFailed qs m.gmailMessageId).queue = t ∨
    (messageFailed qs m.gmailMessageId).queue =
      t ++ [{ m with retryCount := m.retryCount + 1 }] := by
  by_cases hge : m.retryCount + 1 ≥ qs.maxRetries
  · left
    rw [messageFailed_eq_exhaust qs m t m.gmailMessageId hq (by simp) hge,
      processNext_queue]
  · right
    rw [messageFailed_eq_retry qs m t m.gmailMessageId hq (by simp) hge,
      processNext_queue]

theorem nodup_append_single {l : List String} {a : String}
    (h : l.Nodup) (ha : a ∉ l) : (l ++ [a]).Nodup :=
  (List.perm_append_singleton a l).nodup_iff.mpr (List.nodup_cons.mpr ⟨ha, h⟩)

theorem pollStep_sysinv (cfg : PollConfig) (store : List Record) (qs : QueueState)
    (m : PollMsg)
    (h1 : ∀ it ∈ qs.queue, ∃ r, getRecord store it.gmailMessageId = some r ∧
      (r.status = Status.pending ∨ r.status = Status.failed))
    (h2 : (qs.queue.map (fun x => x.gmailMessageId)).Nodup) :
    (∀ it ∈ (pollStep cfg (store, qs) m).2.queue,
      ∃ r, getRecord (pollStep cfg (store, qs) m).1 it.gmailMessageId = some r ∧
        (r.status = Status.pending ∨ r.status = Status.failed)) ∧
    ((pollStep cfg (store, qs) m).2.queue.map (fun x => x.gmailMessageId)).Nodup := by
  by_cases hc1 : messageExists store m.id = true
  · simp only [pollStep, hc1, if_true]
    exact ⟨h1, h2⟩
  · by_cases hc2 : qs.queue.any (fun x => x.gmailMessageId == m.id) = true
    · simp only [pollStep, hc1, Bool.false_eq_true, if_false, hc2, if_true]
      exact ⟨h1, h2⟩
    · by_cases hc3 : (categorizeEmail m.subject m.fromHeader).type = EmailType.NEW_INQUIRY
      · by_cases hc4 : (cfg.testMode &&
            !(strContains (jsOrString (categorizeEmail m.subject m.fromHeader).tenantName
              "Unknown") cfg.testSenderName)) = true
        · simp only [pollStep, hc1, hc2, hc3, hc4, Bool.false_eq_true, if_false,
            if_true, ne_eq, not_true_eq_false]
          exact ⟨h1, h2⟩
        · have hex : messageExists store m.id = false := by simpa using hc1
          have hgnone : getRecord store m.id = none := getRecord_none_of_not_exists hex
          have hstep : pollStep cfg (store, qs) m =
              (store ++ [insertedRow
                 { gmail_message_id := m.id,
                   tenant_name := jsOrString
                     (categorizeEmail m.subject m.fromHeader).tenantName "Unknown Tenant",
                   tenant_email := (categorizeEmail m.subject m.fromHeader).tenantEmail,
                   tenant_message := m.subject,
                   status := Status.pending,
                   ff_conversation_url := none }],
               enqueue qs m.id
                 (jsOrString (categorizeEmail m.subject m.fromHeader).tenantName
                   "Unknown Tenant")
                 (categorizeEmail m.subject m.fromHeader).tenantEmail m.subject) := by
            simp only [pollStep, hc1, hc2, hc3, hc4, Bool.false_eq_true, if_false,
              ne_eq, not_true_eq_false, insertMessage, hex, insertedRow]
          rw [hstep]
          have hmnot : m.id ∉ qs.queue.map (fun x => x.gmailMessageId) := by
            intro hmem
            obtain ⟨x, hx, hxid⟩ := List.mem_map.mp hmem
            have : qs.queue.any (fun x => x.gmailMessageId == m.id) = true :=
              List.any_eq_true.mpr ⟨x, hx, by simp [hxid]⟩
            exact hc2 this
          constructor
          · intro it hit
            rw [enqueue_queue] at hit
            rcases List.mem_append.mp hit with hl | hr
            · obtain ⟨r, hrg, hrs⟩ := h1 it hl
              exact ⟨r, getRecord_append_left _ hrg, hrs⟩
            · rw [List.mem_singleton] at hr
              subst hr
              refine ⟨insertedRow
                { gmail_message_id := m.id,
                  tenant_name := jsOrString
                    (categorizeEmail m.subject m.fromHeader).tenantName "Unknown Tenant",
                  tenant_email := (categorizeEmail m.subject m.fromHeader).tenantEmail,
                  tenant_message := m.subject,
                  status := Status.pending,
                  ff_conversation_url := none }, ?_, Or.inl rfl⟩
              show getRecord _ m.id = _
              rw [getRecord_append_right_none _ hgnone, getRecord_cons]
              rw [if_pos (by simp [insertedRow])]
          · rw [enqueue_queue, List.map_append]
            exact nodup_append_single h2 hmnot
      · simp only [pollStep, hc1, hc2, hc3, Bool.false_eq_true, if_false, ne_eq,
          not_false_eq_true, if_true]
        exact ⟨h1, h2⟩

theorem pollTick_sysinv (cfg : PollConfig) (msgs : List PollMsg) :
    ∀ (store : List Record) (qs : QueueState),
      (∀ it ∈ qs.queue, ∃ r, getRecord store it.gmailMessageId = some r ∧
        (r.status = Status.pending ∨ r.status = Status.failed)) →
      (qs.queue.map (fun x => x.gmailMessageId)).Nodup →
      (∀ it ∈ (pollTick cfg (store, qs) msgs).2.queue,
        ∃ r, getRecord (pollTick cfg (store, qs) msgs).1 it.gmailMessageId = some r ∧
          (r.status = Status.pending ∨ r.status = Status.failed)) ∧
      ((pollTick cfg (store, qs) msgs).2.queue.map (fun x => x.gmailMessageId)).Nodup := by
  induction msgs with
  | nil => intro store qs h1 h2; exact ⟨h1, h2⟩
  | cons m rest ih =>
    intro store qs h1 h2
    obtain ⟨h1', h2'⟩ := pollStep_sysinv cfg store qs m h1 h2
    exact ih (pollStep cfg (store, qs) m).1 (pollStep cfg (store, qs) m).2 h1' h2'

theorem applySys_attempt_sysinv (cfg : SysConfig) (s : SysState) (c : Collab)
    (hinv : SysInv s) : SysInv (applySys cfg s (SysEvent.attempt c)) := by
  obtain ⟨h1, h2, h3⟩ := hinv
  cases hq : s.qs.queue with
  | nil =>
    have happ : applySys cfg s (SysEvent.attempt c) = s := by simp [applySys, hq]
    rw [happ]
    exact ⟨h1, h2, h3⟩
  | cons m t =>
    obtain ⟨r, hr, hrs⟩ := h1 m (by rw [hq]; exact List.mem_cons_self m t)
    obtain ⟨f, hsw, hf3, hqs, hother, hself, hids⟩ :=
      processMessage_spec cfg.autoSend c s.store s.qs m
    have happ : applySys cfg s (SysEvent.attempt c) =
        { store := (processMessage cfg.autoSend c s.store s.qs m).store,
          qs := (processMessage cfg.autoSend c s.store s.qs m).qs,
          transitions := s.transitions ++
            pairUp r.status (processMessage cfg.autoSend c s.store s.qs m).statusWrites } := by
      simp [applySys, hq, hr]
    rw [happ]
    have hmid_not : m.gmailMessageId ∉ t.map (fun x => x.gmailMessageId) := by
      rw [hq, List.map_cons] at h2
      exact (List.nodup_cons.mp h2).1
    have ht_nodup : (t.map (fun x => x.gmailMessageId)).Nodup := by
      rw [hq, List.map_cons] at h2
      exact (List.nodup_cons.mp h2).2
    have h_t_items : ∀ it ∈ t,
        ∃ r', getRecord (processMessage cfg.autoSend c s.store s.qs m).store
          it.gmailMessageId = some r' ∧
          (r'.status = Status.pending ∨ r'.status = Status.failed) := by
      intro it hit
      have hne : it.gmailMessageId ≠ m.gmailMessageId := by
        intro hc
        apply hmid_not
        rw [← hc]
        exact List.mem_map_of_mem _ hit
      obtain ⟨r', hr', hrs'⟩ := h1 it (by rw [hq]; exact List.mem_cons_of_mem m hit)
      exact ⟨r', by rw [hother it.gmailMessageId hne]; exact hr', hrs'⟩
    refine ⟨?_, ?_, ?_⟩
    · rcases hqs with ⟨hfsp, hqeq⟩ | ⟨hff, hqeq⟩
      · rw [hqeq, messageProcessed_queue_head s.qs m t hq]
        exact h_t_items
      · rw [hqeq]
        rcases messageFailed_queue_head s.qs m t hq with hqq | hqq
        · rw [hqq]
          exact h_t_items
        · rw [hqq]
          intro it hit
          rcases List.mem_append.mp hit with hl | hrr
          · exact h_t_items it hl
          · rw [List.mem_singleton] at hrr
            subst hrr
            have hmem_ids : m.gmailMessageId ∈
                s.store.map (fun x => x.gmail_message_id) := mem_ids_of_getRecord hr
            have hmem_ids' : m.gmailMessageId ∈
                (processMessage cfg.autoSend c s.store s.qs m).store.map
                  (fun x => x.gmail_message_id) := by
              rw [hids]
              exact hmem_ids
            obtain ⟨r'', hr''⟩ := exists_getRecord_of_mem_ids hmem_ids'
            refine ⟨r'', hr'', Or.inr ?_⟩
            rw [hself r'' hr'', hff]
    · rcases hqs with ⟨hfsp, hqeq⟩ | ⟨hff, hqeq⟩
      · rw [hqeq, messageProcessed_queue_head s.qs m t hq]
        exact ht_nodup
      · rw [hqeq]
        rcases messageFailed_queue_head s.qs m t hq with hqq | hqq
        · rw [hqq]
          exact ht_nodup
        · rw [hqq, List.map_append]
          exact nodup_append_single ht_nodup hmid_not
    · rw [hsw]
      intro tr htr
      rcases List.mem_append.mp htr with hold | hnew
      · exact h3 tr hold
      · have hpu : pairUp r.status [Status.processing, f] =
            [(r.status, Status.processing), (Status.processing, f)] := rfl
        rw [hpu] at hnew
        rcases List.mem_cons.mp hnew with rfl | hnew2
        · rcases hrs with hpend | hfail
          · rw [hpend]
            decide
          · rw [hfail]
            decide
        · rcases List.mem_cons.mp hnew2 with rfl | hnew3
          · rcases hf3 with h | h | h <;> rw [h] <;> decide
          · cases hnew3

theorem sysInv_run (cfg : SysConfig) (evs : List SysEvent) :
    ∀ s : SysState, SysInv s → SysInv (sysRun cfg s evs) := by
  induction evs with
  | nil => intro s h; exact h
  | cons ev rest ih =>
    intro s h
    refine ih (applySys cfg s ev) ?_
    cases ev with
    | poll msgs =>
      obtain ⟨h1, h2, h3⟩ := h
      have happ : applySys cfg s (SysEvent.poll msgs) =
          { store := (pollTick ⟨cfg.testMode, cfg.testSenderName⟩
              (s.store, s.qs) msgs).1,
            qs := (pollTick ⟨cfg.testMode, cfg.testSenderName⟩
              (s.store, s.qs) msgs).2,
            transitions := s.transitions } := rfl
      rw [happ]
      obtain ⟨h1', h2'⟩ := pollTick_sysinv ⟨cfg.testMode, cfg.testSenderName⟩
        msgs s.store s.qs h1 h2
      exact ⟨h1', h2', h3⟩
    | attempt c => exact applySys_attempt_sysinv cfg s c h

/-- C4: state-machine closure.  Along any system trace of poll ticks and
processing attempts from the empty initial state, every status transition
written to the Store is one of pending→processing, processing→sent,
processing→pending, processing→failed, or failed→processing. -/
theorem claim_C4_state_machine_closure (cfg : SysConfig) (evs : List SysEvent)
    (tr : Status × Status) (htr : tr ∈ (sysRun cfg sysInit evs).transitions) :
    tr ∈ allowedTransitions := by
  have hinit : SysInv sysInit := by
    refine ⟨?_, ?_, ?_⟩
    · intro it hit
      simp [sysInit, initQueue] at hit
    · simp [sysInit, initQueue]
    · intro t ht
      simp [sysInit] at ht
  exact (sysInv_run cfg evs sysInit hinit).2.2 tr htr

/-- C4 witness: a concrete trace (one poll discovering an inquiry, one
successful attempt with auto-send disabled) logs the pending→processing
transition, and the theorem places it in the allowed set. -/
theorem claim_C4_witness :
    (Status.pending, Status.processing) ∈
      (sysRun ⟨false, "", false⟩ sysInit
        [SysEvent.poll [⟨"w1", "Booking Inquiry from Wit", "Wit <w@x.y>"⟩],
         SysEvent.attempt ⟨Except.ok ⟨"Wit", "hello there", "https://ff/w"⟩,
           Except.ok "resp text", Except.ok ()⟩]).transitions ∧
    (Status.pending, Status.processing) ∈ allowedTransitions :=
  ⟨by decide,
    claim_C4_state_machine_closure ⟨false, "", false⟩
      [SysEvent.poll [⟨"w1", "Booking Inquiry from Wit", "Wit <w@x.y>"⟩],
       SysEvent.attempt ⟨Except.ok ⟨"Wit", "hello there", "https://ff/w"⟩,
         Except.ok "resp text", Except.ok ()⟩]
      (Status.pending, Status.processing) (by decide)⟩

end PropertyMgmt
